import Mathlib

/-!
# Verification of the safe-api IPC authorization core

A shallow embedding, in Lean 4, of the IPC message protocol of the
`safe-api` repository: the message model and the wire codec of
`sn_api/src/api/ipc/mod.rs` (bincode binary serialization wrapped in a
base32-no-padding text encoding with a one-character scheme tag), the
response classifier of `sn_api/src/api/app/helpers.rs`, the orchestrator
of `sn_api/src/api/app/auth.rs`, and the credentials-file handling of
`sn_cli/operations/auth_and_connect.rs`.

Machine integers are modelled as `Nat` with explicit bounds, byte strings
as `List Nat` of values below 256, and fallible operations return
`Option` or `Except`.  Payload types whose defining modules are not part
of the source under inspection (`ipc/req.rs`, `ipc/resp.rs`, the authd
constants module, the top-level `Error` type) are modelled from the
specification and marked as such in their doc comments.
-/

/-! ## Bytes and bits

Byte strings are `List Nat` with every element below 256.  Bit strings
are `List Bool`, most significant bit first, matching the bit order that
the base32 text encoding reads bytes in. -/

/-- The `k`-bit most-significant-first bit string of `n % 2^k`. -/
def natBits : Nat → Nat → List Bool
  | 0, _ => []
  | k + 1, n => natBits k (n / 2) ++ [n % 2 == 1]

/-- The value of a most-significant-first bit string. -/
def bitsVal (l : List Bool) : Nat :=
  l.foldl (fun a b => 2 * a + (if b then 1 else 0)) 0

/-- The `k`-byte little-endian byte string of `n % 256^k` (the integer
layout bincode uses for fixed-width integers). -/
def natLE : Nat → Nat → List Nat
  | 0, _ => []
  | k + 1, n => n % 256 :: natLE k (n / 256)

theorem natBits_length (k n : Nat) : (natBits k n).length = k := by
  induction k generalizing n with
  | zero => rfl
  | succ k ih => simp [natBits, ih]

theorem natLE_length (k n : Nat) : (natLE k n).length = k := by
  induction k generalizing n with
  | zero => rfl
  | succ k ih => simp [natLE, ih]

theorem natLE_lt (k n : Nat) : ∀ b ∈ natLE k n, b < 256 := by
  induction k generalizing n with
  | zero => intro b hb; simp [natLE] at hb
  | succ k ih =>
    intro b hb
    simp only [natLE, List.mem_cons] at hb
    rcases hb with h | h
    · subst h; exact Nat.mod_lt _ (by decide)
    · exact ih _ _ h

theorem bitsVal_snoc (l : List Bool) (b : Bool) :
    bitsVal (l ++ [b]) = 2 * bitsVal l + (if b then 1 else 0) := by
  simp [bitsVal, List.foldl_append]

theorem bitsVal_append (l₁ l₂ : List Bool) :
    bitsVal (l₁ ++ l₂) = bitsVal l₁ * 2 ^ l₂.length + bitsVal l₂ := by
  induction l₂ using List.reverseRecOn with
  | nil => simp [bitsVal]
  | append_singleton l₂ b ih =>
    rw [← List.append_assoc, bitsVal_snoc, bitsVal_snoc, ih]
    simp only [List.length_append, List.length_cons, List.length_nil]
    ring

theorem bitsVal_natBits (k n : Nat) : bitsVal (natBits k n) = n % 2 ^ k := by
  induction k generalizing n with
  | zero => simp [natBits, bitsVal, Nat.mod_one]
  | succ k ih =>
    rw [natBits, bitsVal_snoc, ih]
    have h1 : n % 2 ^ (k + 1) = 2 * (n / 2 % 2 ^ k) + n % 2 := by
      have ha : n / 2 % 2 ^ k = n % (2 * 2 ^ k) / 2 :=
        (Nat.mod_mul_right_div_self n 2 (2 ^ k)).symm
      have hb : n % (2 * 2 ^ k) % 2 = n % 2 := Nat.mod_mod_of_dvd n ⟨2 ^ k, rfl⟩
      have hc : 2 ^ (k + 1) = 2 * 2 ^ k := by ring
      rw [hc, ha]
      omega
    rcases Nat.mod_two_eq_zero_or_one n with h | h <;> simp [h] <;> omega

theorem bitsVal_lt (l : List Bool) : bitsVal l < 2 ^ l.length := by
  induction l using List.reverseRecOn with
  | nil => simp [bitsVal]
  | append_singleton l b ih =>
    rw [bitsVal_snoc]
    simp only [List.length_append, List.length_cons, List.length_nil, pow_succ]
    rcases b with _ | _ <;> simp <;> omega

theorem natBits_bitsVal (l : List Bool) : natBits l.length (bitsVal l) = l := by
  induction l using List.reverseRecOn with
  | nil => rfl
  | append_singleton l b ih =>
    simp only [List.length_append, List.length_cons, List.length_nil, natBits,
      bitsVal_snoc]
    have hdiv : (2 * bitsVal l + (if b then 1 else 0)) / 2 = bitsVal l := by
      rcases b with _ | _ <;> simp <;> omega
    have hmod : (2 * bitsVal l + (if b then 1 else 0)) % 2 = (if b then 1 else 0) := by
      rcases b with _ | _ <;> simp [Nat.mul_add_mod]
    rw [hdiv, hmod, ih]
    rcases b with _ | _ <;> simp

/-! ## Parsing primitives

Decoders are state-passing functions `List Nat → Option (α × List Nat)`
on byte strings, mirroring bincode's sequential reader.  For every
decoder two laws are proved: a round trip (reading a canonical encoding
followed by any rest yields the value and the rest) and a truncation law
(reading any strict prefix of a canonical encoding fails). -/

/-- Read a `k`-byte little-endian unsigned integer. -/
def rdLE : Nat → List Nat → Option (Nat × List Nat)
  | 0, l => some (0, l)
  | _ + 1, [] => none
  | k + 1, b :: l => (rdLE k l).map fun p => (b + 256 * p.1, p.2)

theorem rdLE_roundtrip (k n : Nat) (hn : n < 256 ^ k) (rest : List Nat) :
    rdLE k (natLE k n ++ rest) = some (n, rest) := by
  induction k generalizing n with
  | zero =>
    have : n = 0 := by simpa using hn
    simp [natLE, rdLE, this]
  | succ k ih =>
    have hdiv : n / 256 < 256 ^ k := by
      rw [Nat.div_lt_iff_lt_mul (by decide)]
      calc n < 256 ^ (k + 1) := hn
        _ = 256 ^ k * 256 := by ring
    have hih := ih (n / 256) hdiv
    simp only [natLE, List.cons_append, rdLE, List.append_eq, hih, Option.map_some',
      Option.some.injEq, Prod.mk.injEq, and_true]
    have := Nat.mod_add_div n 256
    omega

theorem rdLE_short (k : Nat) (l : List Nat) (h : l.length < k) :
    rdLE k l = none := by
  induction k generalizing l with
  | zero => omega
  | succ k ih =>
    match l with
    | [] => rfl
    | b :: l =>
      simp only [List.length_cons] at h
      simp [rdLE, ih l (by omega)]

/-- Pack a most-significant-first bit string into bytes, eight bits per
byte, dropping any trailing group of fewer than eight bits. -/
def bitsToBytes : List Bool → List Nat
  | b0 :: b1 :: b2 :: b3 :: b4 :: b5 :: b6 :: b7 :: t =>
    bitsVal [b0, b1, b2, b3, b4, b5, b6, b7] :: bitsToBytes t
  | _ => []

/-- Unpack a byte string into its most-significant-first bit string. -/
def bytesToBits (l : List Nat) : List Bool :=
  (l.map (natBits 8)).flatten

theorem bytesToBits_length (l : List Nat) : (bytesToBits l).length = 8 * l.length := by
  induction l with
  | nil => rfl
  | cons b t ih =>
    simp only [bytesToBits, List.map_cons, List.flatten_cons, List.length_append,
      natBits_length, List.length_cons] at *
    omega

theorem bitsToBytes_append8 (l r : List Bool) (h : l.length = 8) :
    bitsToBytes (l ++ r) = bitsVal l :: bitsToBytes r := by
  match l, h with
  | [b0, b1, b2, b3, b4, b5, b6, b7], _ => rfl

theorem bitsToBytes_short (l : List Bool) (h : l.length < 8) :
    bitsToBytes l = [] := by
  match l with
  | [] => rfl
  | [_] => rfl
  | [_, _] => rfl
  | [_, _, _] => rfl
  | [_, _, _, _] => rfl
  | [_, _, _, _, _] => rfl
  | [_, _, _, _, _, _] => rfl
  | [_, _, _, _, _, _, _] => rfl
  | _ :: _ :: _ :: _ :: _ :: _ :: _ :: _ :: _ => simp at h; omega

/-- Packing the bit string of a valid byte string (padded by fewer than
eight extra bits) recovers the byte string. -/
theorem bitsToBytes_bytesToBits (l : List Nat) (pad : List Bool)
    (hv : ∀ b ∈ l, b < 256) (hp : pad.length < 8) :
    bitsToBytes (bytesToBits l ++ pad) = l := by
  induction l with
  | nil => simp [bytesToBits, bitsToBytes_short pad hp]
  | cons b t ih =>
    have hb : b < 256 := hv b (List.mem_cons_self _ _)
    have ht : ∀ x ∈ t, x < 256 := fun x hx => hv x (List.mem_cons_of_mem _ hx)
    simp only [bytesToBits, List.map_cons, List.flatten_cons, List.append_assoc]
    rw [bitsToBytes_append8 _ _ (natBits_length 8 b), bitsVal_natBits]
    rw [Nat.mod_eq_of_lt (by exact hb)]
    exact congrArg _ (ih ht)

/-! ## The IPC message model (`sn_api/src/api/ipc/mod.rs`, `errors.rs`)

Strings are represented by their UTF-8 byte strings (`List Nat`), `u32`
and `u64` by `Nat` with explicit bounds in the validity predicate. -/

namespace ipc

/-- Ipc error (`sn_api/src/api/ipc/errors.rs`), variants in source
order; bincode tags enums with the `u32` index of the variant. -/
inductive IpcError : Type
  | AuthDenied
  | InvalidMsg
  | EncodeDecodeError
  | AlreadyAuthorised
  | UnknownApp
  | Unexpected (detail : List Nat)
  deriving DecidableEq

/-- Modelled from the spec: `AuthReq` lives in `ipc/req.rs`, which is
not among the sources; the spec gives it the application identity
fields `app_id`, `app_name`, `app_vendor`. -/
structure AuthReq : Type where
  app_id : List Nat
  app_name : List Nat
  app_vendor : List Nat
  deriving DecidableEq

/-- Modelled from the spec: a network socket address (element of the
`BootstrapConfig` set); `std::net::SocketAddr` is external to the
sources, modelled as an ip/port pair. -/
structure SocketAddr : Type where
  ip : Nat
  port : Nat
  deriving DecidableEq

/-- `QuicP2P` bootstrap info, shared from Authenticator to apps
(`HashSet<SocketAddr>` in the source, modelled as a list). -/
abbrev BootstrapConfig : Type := List SocketAddr

/-- Modelled from the spec: `AuthGranted` lives in `ipc/resp.rs`, which
is not among the sources; the spec describes it as an opaque signed
credential bundle plus bootstrap endpoints. -/
structure AuthGranted : Type where
  bundle : List Nat
  bootstrap_config : BootstrapConfig
  deriving DecidableEq

/-- Modelled from the spec: `IpcReq` lives in `ipc/req.rs`, not among
the sources; `mod.rs` re-exports only the `AuthReq` request payload. -/
inductive IpcReq : Type
  | Auth (req : AuthReq)
  deriving DecidableEq

instance exceptDecEq {ε α : Type} [DecidableEq ε] [DecidableEq α] :
    DecidableEq (Except ε α) := fun a b =>
  match a, b with
  | .ok x, .ok y =>
    if h : x = y then isTrue (by rw [h]) else isFalse (by intro hc; cases hc; exact h rfl)
  | .error x, .error y =>
    if h : x = y then isTrue (by rw [h]) else isFalse (by intro hc; cases hc; exact h rfl)
  | .ok _, .error _ => isFalse (by intro hc; cases hc)
  | .error _, .ok _ => isFalse (by intro hc; cases hc)

/-- Modelled from the spec: `IpcResp` lives in `ipc/resp.rs`, not among
the sources; `helpers.rs` matches the variants
`Auth(Result<AuthGranted, _>)` and `Unregistered(Result<BootstrapConfig, _>)`. -/
inductive IpcResp : Type
  | Auth (res : Except IpcError AuthGranted)
  | Unregistered (res : Except IpcError BootstrapConfig)
  deriving DecidableEq

/-- IPC message (`sn_api/src/api/ipc/mod.rs`), variants in source
order. -/
inductive IpcMsg : Type
  | Req (req_id : Nat) (request : IpcReq)
  | Resp (req_id : Nat) (response : IpcResp)
  | Revoked (app_id : List Nat)
  | Err (e : IpcError)
  deriving DecidableEq

/-! ### Validity

A value is valid when every modelled machine integer fits its Rust
width: bytes below 256, `u32` fields below `2^32`, lengths (which
bincode writes as `u64`) below `2^64`. -/

/-- A byte string: every element a byte, length expressible as `u64`. -/
def bytesOk (l : List Nat) : Prop := l.length < 2 ^ 64 ∧ ∀ b ∈ l, b < 256

def IpcError.valid : IpcError → Prop
  | .Unexpected d => bytesOk d
  | _ => True

def SocketAddr.valid (a : SocketAddr) : Prop := a.ip < 2 ^ 32 ∧ a.port < 2 ^ 16

def configValid (c : BootstrapConfig) : Prop :=
  c.length < 2 ^ 64 ∧ ∀ a ∈ c, a.valid

def AuthGranted.valid (g : AuthGranted) : Prop :=
  bytesOk g.bundle ∧ configValid g.bootstrap_config

def AuthReq.valid (r : AuthReq) : Prop :=
  bytesOk r.app_id ∧ bytesOk r.app_name ∧ bytesOk r.app_vendor

def IpcReq.valid : IpcReq → Prop
  | .Auth r => r.valid

def IpcResp.valid : IpcResp → Prop
  | .Auth (.ok g) => g.valid
  | .Auth (.error e) => e.valid
  | .Unregistered (.ok c) => configValid c
  | .Unregistered (.error e) => e.valid

def IpcMsg.valid : IpcMsg → Prop
  | .Req req_id r => req_id < 2 ^ 32 ∧ r.valid
  | .Resp req_id r => req_id < 2 ^ 32 ∧ r.valid
  | .Revoked a => bytesOk a
  | .Err e => e.valid

instance : DecidablePred bytesOk := fun l =>
  decidable_of_iff (l.length < 2 ^ 64 ∧ ∀ b ∈ l, b < 256) Iff.rfl

instance : DecidablePred SocketAddr.valid := fun a =>
  decidable_of_iff (a.ip < 2 ^ 32 ∧ a.port < 2 ^ 16) Iff.rfl

instance : DecidablePred configValid := fun c =>
  decidable_of_iff (c.length < 2 ^ 64 ∧ ∀ a ∈ c, a.valid) Iff.rfl

instance : DecidablePred AuthGranted.valid := fun g =>
  decidable_of_iff (bytesOk g.bundle ∧ configValid g.bootstrap_config) Iff.rfl

instance : DecidablePred AuthReq.valid := fun r =>
  decidable_of_iff (bytesOk r.app_id ∧ bytesOk r.app_name ∧ bytesOk r.app_vendor) Iff.rfl

instance : DecidablePred IpcError.valid := fun e =>
  match e with
  | .Unexpected d => inferInstanceAs (Decidable (bytesOk d))
  | .AuthDenied => inferInstanceAs (Decidable True)
  | .InvalidMsg => inferInstanceAs (Decidable True)
  | .EncodeDecodeError => inferInstanceAs (Decidable True)
  | .AlreadyAuthorised => inferInstanceAs (Decidable True)
  | .UnknownApp => inferInstanceAs (Decidable True)

instance : DecidablePred IpcReq.valid := fun r =>
  match r with
  | .Auth a => inferInstanceAs (Decidable a.valid)

instance : DecidablePred IpcResp.valid := fun r =>
  match r with
  | .Auth (.ok g) => inferInstanceAs (Decidable g.valid)
  | .Auth (.error e) => inferInstanceAs (Decidable e.valid)
  | .Unregistered (.ok c) => inferInstanceAs (Decidable (configValid c))
  | .Unregistered (.error e) => inferInstanceAs (Decidable e.valid)

instance : DecidablePred IpcMsg.valid := fun m =>
  match m with
  | .Req req_id r => inferInstanceAs (Decidable (req_id < 2 ^ 32 ∧ r.valid))
  | .Resp req_id r => inferInstanceAs (Decidable (req_id < 2 ^ 32 ∧ r.valid))
  | .Revoked a => inferInstanceAs (Decidable (bytesOk a))
  | .Err e => inferInstanceAs (Decidable e.valid)

/-! ### Binary serialization (bincode)

`serialize`/`deserialize` come from the external `bincode` crate with
its default configuration: fixed-width little-endian integers, a `u32`
variant index in front of enum payloads, a `u64` length in front of
variable-length sequences (strings, sets).  `Result` is the two-variant
enum `Ok = 0 / Err = 1`. -/

/-- A length-prefixed byte string (bincode's layout for `String` and
`Vec<u8>`). -/
def serBytes (s : List Nat) : List Nat := natLE 8 s.length ++ s

def SocketAddr.ser (a : SocketAddr) : List Nat := natLE 4 a.ip ++ natLE 2 a.port

def serConfig (c : BootstrapConfig) : List Nat :=
  natLE 8 c.length ++ (c.map SocketAddr.ser).flatten

def AuthGranted.ser (g : AuthGranted) : List Nat :=
  serBytes g.bundle ++ serConfig g.bootstrap_config

def IpcError.ser : IpcError → List Nat
  | .AuthDenied => natLE 4 0
  | .InvalidMsg => natLE 4 1
  | .EncodeDecodeError => natLE 4 2
  | .AlreadyAuthorised => natLE 4 3
  | .UnknownApp => natLE 4 4
  | .Unexpected d => natLE 4 5 ++ serBytes d

def AuthReq.ser (r : AuthReq) : List Nat :=
  serBytes r.app_id ++ serBytes r.app_name ++ serBytes r.app_vendor

def IpcReq.ser : IpcReq → List Nat
  | .Auth r => natLE 4 0 ++ r.ser

def serResAuth : Except IpcError AuthGranted → List Nat
  | .ok g => natLE 4 0 ++ g.ser
  | .error e => natLE 4 1 ++ e.ser

def serResConfig : Except IpcError BootstrapConfig → List Nat
  | .ok c => natLE 4 0 ++ serConfig c
  | .error e => natLE 4 1 ++ e.ser

def IpcResp.ser : IpcResp → List Nat
  | .Auth r => natLE 4 0 ++ serResAuth r
  | .Unregistered r => natLE 4 1 ++ serResConfig r

/-- The bincode binary form of an `IpcMsg` (what
`bincode::serialize(&msg)` produces). -/
def IpcMsg.ser : IpcMsg → List Nat
  | .Req req_id r => natLE 4 0 ++ natLE 4 req_id ++ r.ser
  | .Resp req_id r => natLE 4 1 ++ natLE 4 req_id ++ r.ser
  | .Revoked a => natLE 4 2 ++ serBytes a
  | .Err e => natLE 4 3 ++ e.ser

/-! ### Binary deserialization -/

/-- Read a length-prefixed byte string; fails when fewer bytes remain
than the length announces. -/
def rdBytes (l : List Nat) : Option (List Nat × List Nat) :=
  match rdLE 8 l with
  | none => none
  | some (n, r) => if n ≤ r.length then some (r.take n, r.drop n) else none

def rdSocketAddr (l : List Nat) : Option (SocketAddr × List Nat) :=
  match rdLE 4 l with
  | none => none
  | some (ip, r) =>
    match rdLE 2 r with
    | none => none
    | some (port, r₂) => some (⟨ip, port⟩, r₂)

/-- Read exactly `n` socket addresses. -/
def rdAddrs : Nat → List Nat → Option (List SocketAddr × List Nat)
  | 0, l => some ([], l)
  | n + 1, l =>
    match rdSocketAddr l with
    | none => none
    | some (a, r) =>
      match rdAddrs n r with
      | none => none
      | some (t, r₂) => some (a :: t, r₂)

def rdConfig (l : List Nat) : Option (BootstrapConfig × List Nat) :=
  match rdLE 8 l with
  | none => none
  | some (n, r) => rdAddrs n r

def rdAuthGranted (l : List Nat) : Option (AuthGranted × List Nat) :=
  match rdBytes l with
  | none => none
  | some (bundle, r) =>
    match rdConfig r with
    | none => none
    | some (c, r₂) => some (⟨bundle, c⟩, r₂)

def rdIpcError (l : List Nat) : Option (IpcError × List Nat) :=
  match rdLE 4 l with
  | none => none
  | some (t, r) =>
    if t = 0 then some (.AuthDenied, r)
    else if t = 1 then some (.InvalidMsg, r)
    else if t = 2 then some (.EncodeDecodeError, r)
    else if t = 3 then some (.AlreadyAuthorised, r)
    else if t = 4 then some (.UnknownApp, r)
    else if t = 5 then
      match rdBytes r with
      | none => none
      | some (d, r₂) => some (.Unexpected d, r₂)
    else none

def rdAuthReq (l : List Nat) : Option (AuthReq × List Nat) :=
  match rdBytes l with
  | none => none
  | some (a, r) =>
    match rdBytes r with
    | none => none
    | some (b, r₂) =>
      match rdBytes r₂ with
      | none => none
      | some (c, r₃) => some (⟨a, b, c⟩, r₃)

def rdIpcReq (l : List Nat) : Option (IpcReq × List Nat) :=
  match rdLE 4 l with
  | none => none
  | some (t, r) =>
    if t = 0 then
      match rdAuthReq r with
      | none => none
      | some (a, r₂) => some (.Auth a, r₂)
    else none

def rdResAuth (l : List Nat) : Option (Except IpcError AuthGranted × List Nat) :=
  match rdLE 4 l with
  | none => none
  | some (t, r) =>
    if t = 0 then
      match rdAuthGranted r with
      | none => none
      | some (g, r₂) => some (.ok g, r₂)
    else if t = 1 then
      match rdIpcError r with
      | none => none
      | some (e, r₂) => some (.error e, r₂)
    else none

def rdResConfig (l : List Nat) : Option (Except IpcError BootstrapConfig × List Nat) :=
  match rdLE 4 l with
  | none => none
  | some (t, r) =>
    if t = 0 then
      match rdConfig r with
      | none => none
      | some (c, r₂) => some (.ok c, r₂)
    else if t = 1 then
      match rdIpcError r with
      | none => none
      | some (e, r₂) => some (.error e, r₂)
    else none

def rdIpcResp (l : List Nat) : Option (IpcResp × List Nat) :=
  match rdLE 4 l with
  | none => none
  | some (t, r) =>
    if t = 0 then
      match rdResAuth r with
      | none => none
      | some (a, r₂) => some (.Auth a, r₂)
    else if t = 1 then
      match rdResConfig r with
      | none => none
      | some (c, r₂) => some (.Unregistered c, r₂)
    else none

/-- Deserialize an `IpcMsg` from the front of a byte string (what
`bincode::deserialize::<IpcMsg>` does; trailing bytes are ignored). -/
def rdIpcMsg (l : List Nat) : Option (IpcMsg × List Nat) :=
  match rdLE 4 l with
  | none => none
  | some (t, r) =>
    if t = 0 then
      match rdLE 4 r with
      | none => none
      | some (req_id, r₂) =>
        match rdIpcReq r₂ with
        | none => none
        | some (q, r₃) => some (.Req req_id q, r₃)
    else if t = 1 then
      match rdLE 4 r with
      | none => none
      | some (req_id, r₂) =>
        match rdIpcResp r₂ with
        | none => none
        | some (p, r₃) => some (.Resp req_id p, r₃)
    else if t = 2 then
      match rdBytes r with
      | none => none
      | some (a, r₂) => some (.Revoked a, r₂)
    else if t = 3 then
      match rdIpcError r with
      | none => none
      | some (e, r₂) => some (.Err e, r₂)
    else none


/-! ### Deserialize–serialize round trips -/

theorem rdBytes_roundtrip (s : List Nat) (h : s.length < 2 ^ 64) (rest : List Nat) :
    rdBytes (serBytes s ++ rest) = some (s, rest) := by
  have h8 : s.length < 256 ^ 8 := by
    have : (256 : Nat) ^ 8 = 2 ^ 64 := by norm_num
    omega
  unfold serBytes rdBytes
  rw [List.append_assoc, rdLE_roundtrip 8 s.length h8]
  simp [List.take_left, List.drop_left]

theorem rdSocketAddr_roundtrip (a : SocketAddr) (h : a.valid) (rest : List Nat) :
    rdSocketAddr (a.ser ++ rest) = some (a, rest) := by
  obtain ⟨hip, hport⟩ := h
  have h4 : a.ip < 256 ^ 4 := by
    have : (256 : Nat) ^ 4 = 2 ^ 32 := by norm_num
    omega
  have h2 : a.port < 256 ^ 2 := by
    have : (256 : Nat) ^ 2 = 2 ^ 16 := by norm_num
    omega
  unfold SocketAddr.ser rdSocketAddr
  rw [List.append_assoc]
  simp only [rdLE_roundtrip 4 a.ip h4, rdLE_roundtrip 2 a.port h2]

theorem rdAddrs_roundtrip (c : List SocketAddr) (h : ∀ a ∈ c, a.valid) (rest : List Nat) :
    rdAddrs c.length ((c.map SocketAddr.ser).flatten ++ rest) = some (c, rest) := by
  induction c with
  | nil => simp [rdAddrs]
  | cons a t ih =>
    have ha : a.valid := h a (List.mem_cons_self _ _)
    have ht : ∀ x ∈ t, x.valid := fun x hx => h x (List.mem_cons_of_mem _ hx)
    simp only [List.map_cons, List.flatten_cons, List.length_cons, List.append_assoc]
    unfold rdAddrs
    simp only [rdSocketAddr_roundtrip a ha, ih ht]

theorem rdConfig_roundtrip (c : BootstrapConfig) (h : configValid c) (rest : List Nat) :
    rdConfig (serConfig c ++ rest) = some (c, rest) := by
  obtain ⟨hlen, helts⟩ := h
  have h8 : c.length < 256 ^ 8 := by
    have : (256 : Nat) ^ 8 = 2 ^ 64 := by norm_num
    omega
  unfold serConfig rdConfig
  rw [List.append_assoc]
  simp only [rdLE_roundtrip 8 c.length h8, rdAddrs_roundtrip c helts]

theorem rdAuthGranted_roundtrip (g : AuthGranted) (h : g.valid) (rest : List Nat) :
    rdAuthGranted (g.ser ++ rest) = some (g, rest) := by
  obtain ⟨⟨hlen, _⟩, hc⟩ := h
  unfold AuthGranted.ser rdAuthGranted
  rw [List.append_assoc]
  simp only [rdBytes_roundtrip g.bundle hlen, rdConfig_roundtrip _ hc]

theorem rdIpcError_roundtrip (e : IpcError) (h : e.valid) (rest : List Nat) :
    rdIpcError (e.ser ++ rest) = some (e, rest) := by
  cases e with
  | AuthDenied => simp [IpcError.ser, rdIpcError, rdLE_roundtrip 4 0 (by norm_num) rest]
  | InvalidMsg => simp [IpcError.ser, rdIpcError, rdLE_roundtrip 4 1 (by norm_num) rest]
  | EncodeDecodeError =>
    simp [IpcError.ser, rdIpcError, rdLE_roundtrip 4 2 (by norm_num) rest]
  | AlreadyAuthorised =>
    simp [IpcError.ser, rdIpcError, rdLE_roundtrip 4 3 (by norm_num) rest]
  | UnknownApp => simp [IpcError.ser, rdIpcError, rdLE_roundtrip 4 4 (by norm_num) rest]
  | Unexpected d =>
    obtain ⟨hlen, _⟩ := h
    simp [IpcError.ser, rdIpcError, List.append_assoc,
      rdLE_roundtrip 4 5 (by norm_num), rdBytes_roundtrip d hlen rest]

theorem rdAuthReq_roundtrip (r : AuthReq) (h : r.valid) (rest : List Nat) :
    rdAuthReq (r.ser ++ rest) = some (r, rest) := by
  obtain ⟨⟨h1, _⟩, ⟨h2, _⟩, ⟨h3, _⟩⟩ := h
  unfold AuthReq.ser rdAuthReq
  rw [List.append_assoc, List.append_assoc]
  simp only [rdBytes_roundtrip r.app_id h1, rdBytes_roundtrip r.app_name h2,
    rdBytes_roundtrip r.app_vendor h3]

theorem rdIpcReq_roundtrip (q : IpcReq) (h : q.valid) (rest : List Nat) :
    rdIpcReq (q.ser ++ rest) = some (q, rest) := by
  cases q with
  | Auth r =>
    have hr : r.valid := h
    simp [IpcReq.ser, rdIpcReq, List.append_assoc, rdLE_roundtrip 4 0 (by norm_num),
      rdAuthReq_roundtrip r hr rest]

theorem rdResAuth_roundtrip (x : Except IpcError AuthGranted)
    (h : IpcResp.valid (.Auth x)) (rest : List Nat) :
    rdResAuth (serResAuth x ++ rest) = some (x, rest) := by
  cases x with
  | ok g =>
    simp [serResAuth, rdResAuth, List.append_assoc, rdLE_roundtrip 4 0 (by norm_num),
      rdAuthGranted_roundtrip g h rest]
  | error e =>
    simp [serResAuth, rdResAuth, List.append_assoc, rdLE_roundtrip 4 1 (by norm_num),
      rdIpcError_roundtrip e h rest]

theorem rdResConfig_roundtrip (x : Except IpcError BootstrapConfig)
    (h : IpcResp.valid (.Unregistered x)) (rest : List Nat) :
    rdResConfig (serResConfig x ++ rest) = some (x, rest) := by
  cases x with
  | ok c =>
    simp [serResConfig, rdResConfig, List.append_assoc, rdLE_roundtrip 4 0 (by norm_num),
      rdConfig_roundtrip c h rest]
  | error e =>
    simp [serResConfig, rdResConfig, List.append_assoc, rdLE_roundtrip 4 1 (by norm_num),
      rdIpcError_roundtrip e h rest]

theorem rdIpcResp_roundtrip (p : IpcResp) (h : p.valid) (rest : List Nat) :
    rdIpcResp (p.ser ++ rest) = some (p, rest) := by
  cases p with
  | Auth x =>
    simp [IpcResp.ser, rdIpcResp, List.append_assoc, rdLE_roundtrip 4 0 (by norm_num),
      rdResAuth_roundtrip x h rest]
  | Unregistered x =>
    simp [IpcResp.ser, rdIpcResp, List.append_assoc, rdLE_roundtrip 4 1 (by norm_num),
      rdResConfig_roundtrip x h rest]

theorem rdIpcMsg_roundtrip (m : IpcMsg) (h : m.valid) (rest : List Nat) :
    rdIpcMsg (m.ser ++ rest) = some (m, rest) := by
  have h232 : (256 : Nat) ^ 4 = 2 ^ 32 := by norm_num
  cases m with
  | Req req_id q =>
    obtain ⟨hid, hq⟩ := h
    simp [IpcMsg.ser, rdIpcMsg, List.append_assoc, rdLE_roundtrip 4 0 (by norm_num),
      rdLE_roundtrip 4 req_id (by omega), rdIpcReq_roundtrip q hq rest]
  | Resp req_id p =>
    obtain ⟨hid, hp⟩ := h
    simp [IpcMsg.ser, rdIpcMsg, List.append_assoc, rdLE_roundtrip 4 1 (by norm_num),
      rdLE_roundtrip 4 req_id (by omega), rdIpcResp_roundtrip p hp rest]
  | Revoked a =>
    obtain ⟨hlen, _⟩ := h
    simp [IpcMsg.ser, rdIpcMsg, List.append_assoc, rdLE_roundtrip 4 2 (by norm_num),
      rdBytes_roundtrip a hlen rest]
  | Err e =>
    simp [IpcMsg.ser, rdIpcMsg, List.append_assoc, rdLE_roundtrip 4 3 (by norm_num),
      rdIpcError_roundtrip e h rest]


/-! ### Truncation: a strict prefix of a canonical encoding fails -/

theorem take_append_lt {α : Type} (l₁ l₂ : List α) (j : Nat) (h : j ≤ l₁.length) :
    (l₁ ++ l₂).take j = l₁.take j := by
  rw [List.take_append_eq_append_take, Nat.sub_eq_zero_of_le h, List.take_zero,
    List.append_nil]

theorem take_append_ge {α : Type} (l₁ l₂ : List α) (j : Nat) (h : l₁.length ≤ j) :
    (l₁ ++ l₂).take j = l₁ ++ l₂.take (j - l₁.length) := by
  rw [List.take_append_eq_append_take, List.take_of_length_le h]

theorem rdLE_take_none (k j : Nat) (l : List Nat) (hj : j < k) :
    rdLE k (l.take j) = none := by
  apply rdLE_short
  simp only [List.length_take]
  omega

theorem serBytes_length (s : List Nat) : (serBytes s).length = 8 + s.length := by
  simp [serBytes, natLE_length]

theorem sockSer_length (a : SocketAddr) : a.ser.length = 6 := by
  simp [SocketAddr.ser, natLE_length]

theorem flattenSocks_length (c : List SocketAddr) :
    ((c.map SocketAddr.ser).flatten).length = 6 * c.length := by
  induction c with
  | nil => rfl
  | cons a t ih =>
    rw [List.map_cons, List.flatten_cons, List.length_append, sockSer_length, ih,
      List.length_cons]
    ring

theorem serConfig_length (c : BootstrapConfig) :
    (serConfig c).length = 8 + 6 * c.length := by
  unfold serConfig
  rw [List.length_append, natLE_length, flattenSocks_length]

theorem rdBytes_trunc (s : List Nat) (h : s.length < 2 ^ 64) (j : Nat)
    (hj : j < (serBytes s).length) : rdBytes ((serBytes s).take j) = none := by
  have h8 : s.length < 256 ^ 8 := by
    have : (256 : Nat) ^ 8 = 2 ^ 64 := by norm_num
    omega
  rw [serBytes_length] at hj
  unfold serBytes at *
  rcases lt_or_ge j 8 with hlt | hge
  · unfold rdBytes
    rw [rdLE_take_none 8 j _ hlt]
  · rw [take_append_ge _ _ j (by rw [natLE_length]; omega), natLE_length]
    unfold rdBytes
    simp only [rdLE_roundtrip 8 s.length h8]
    rw [if_neg (by simp only [List.length_take]; omega)]

theorem rdSocketAddr_trunc (a : SocketAddr) (h : a.valid) (j : Nat)
    (hj : j < a.ser.length) : rdSocketAddr (a.ser.take j) = none := by
  obtain ⟨hip, hport⟩ := h
  have h4 : a.ip < 256 ^ 4 := by
    have : (256 : Nat) ^ 4 = 2 ^ 32 := by norm_num
    omega
  rw [sockSer_length] at hj
  unfold SocketAddr.ser at *
  rcases lt_or_ge j 4 with hlt | hge
  · unfold rdSocketAddr
    rw [rdLE_take_none 4 j _ hlt]
  · rw [take_append_ge _ _ j (by rw [natLE_length]; omega), natLE_length]
    unfold rdSocketAddr
    simp only [rdLE_roundtrip 4 a.ip h4, rdLE_take_none 2 (j - 4) (natLE 2 a.port) (by omega)]

theorem rdAddrs_trunc (c : List SocketAddr) (h : ∀ a ∈ c, a.valid) (j : Nat)
    (hj : j < ((c.map SocketAddr.ser).flatten).length) :
    rdAddrs c.length (((c.map SocketAddr.ser).flatten).take j) = none := by
  induction c generalizing j with
  | nil => simp [flattenSocks_length] at hj
  | cons a t ih =>
    have ha : a.valid := h a (List.mem_cons_self _ _)
    have ht : ∀ x ∈ t, x.valid := fun x hx => h x (List.mem_cons_of_mem _ hx)
    rw [List.length_cons]
    simp only [List.map_cons, List.flatten_cons] at hj ⊢
    rw [List.length_append, sockSer_length] at hj
    rcases lt_or_ge j 6 with hlt | hge
    · rw [take_append_lt _ _ j (by rw [sockSer_length]; omega)]
      unfold rdAddrs
      rw [rdSocketAddr_trunc a ha j (by rw [sockSer_length]; omega)]
    · rw [take_append_ge _ _ j (by rw [sockSer_length]; omega), sockSer_length]
      unfold rdAddrs
      simp only [rdSocketAddr_roundtrip a ha, ih ht (j - 6) (by omega)]

theorem rdConfig_trunc (c : BootstrapConfig) (h : configValid c) (j : Nat)
    (hj : j < (serConfig c).length) : rdConfig ((serConfig c).take j) = none := by
  obtain ⟨hlen, helts⟩ := h
  have h8 : c.length < 256 ^ 8 := by
    have : (256 : Nat) ^ 8 = 2 ^ 64 := by norm_num
    omega
  rw [serConfig_length] at hj
  unfold serConfig at *
  rcases lt_or_ge j 8 with hlt | hge
  · unfold rdConfig
    rw [rdLE_take_none 8 j _ hlt]
  · rw [take_append_ge _ _ j (by rw [natLE_length]; omega), natLE_length]
    unfold rdConfig
    rw [rdLE_roundtrip 8 c.length h8]
    exact rdAddrs_trunc c helts (j - 8) (by rw [flattenSocks_length]; omega)

theorem rdAuthGranted_trunc (g : AuthGranted) (h : g.valid) (j : Nat)
    (hj : j < g.ser.length) : rdAuthGranted (g.ser.take j) = none := by
  obtain ⟨⟨hlen, _⟩, hc⟩ := h
  unfold AuthGranted.ser at *
  rw [List.length_append] at hj
  rcases lt_or_ge j (serBytes g.bundle).length with hlt | hge
  · rw [take_append_lt _ _ j (by omega)]
    unfold rdAuthGranted
    rw [rdBytes_trunc g.bundle hlen j hlt]
  · rw [take_append_ge _ _ j hge]
    unfold rdAuthGranted
    simp only [rdBytes_roundtrip g.bundle hlen]
    rw [rdConfig_trunc _ hc _ (by omega)]

theorem rdIpcError_trunc (e : IpcError) (h : e.valid) (j : Nat)
    (hj : j < e.ser.length) : rdIpcError (e.ser.take j) = none := by
  cases e with
  | AuthDenied =>
    simp only [IpcError.ser, natLE_length] at hj
    unfold rdIpcError
    rw [IpcError.ser, rdLE_take_none 4 j _ hj]
  | InvalidMsg =>
    simp only [IpcError.ser, natLE_length] at hj
    unfold rdIpcError
    rw [IpcError.ser, rdLE_take_none 4 j _ hj]
  | EncodeDecodeError =>
    simp only [IpcError.ser, natLE_length] at hj
    unfold rdIpcError
    rw [IpcError.ser, rdLE_take_none 4 j _ hj]
  | AlreadyAuthorised =>
    simp only [IpcError.ser, natLE_length] at hj
    unfold rdIpcError
    rw [IpcError.ser, rdLE_take_none 4 j _ hj]
  | UnknownApp =>
    simp only [IpcError.ser, natLE_length] at hj
    unfold rdIpcError
    rw [IpcError.ser, rdLE_take_none 4 j _ hj]
  | Unexpected d =>
    obtain ⟨hlen, _⟩ := h
    simp only [IpcError.ser, List.length_append, natLE_length, serBytes_length] at hj
    rw [IpcError.ser]
    rcases lt_or_ge j 4 with hlt | hge
    · unfold rdIpcError
      rw [rdLE_take_none 4 j _ hlt]
    · rw [take_append_ge _ _ j (by rw [natLE_length]; omega), natLE_length]
      unfold rdIpcError
      simp [rdLE_roundtrip 4 5 (by norm_num),
        rdBytes_trunc d hlen (j - 4) (by rw [serBytes_length]; omega)]

theorem rdAuthReq_trunc (r : AuthReq) (h : r.valid) (j : Nat)
    (hj : j < r.ser.length) : rdAuthReq (r.ser.take j) = none := by
  obtain ⟨⟨h1, _⟩, ⟨h2, _⟩, ⟨h3, _⟩⟩ := h
  unfold AuthReq.ser at hj ⊢
  rw [List.append_assoc] at hj ⊢
  simp only [List.length_append, serBytes_length] at hj
  rcases lt_or_ge j (8 + r.app_id.length) with hlt | hge
  · rw [take_append_lt _ _ j (by rw [serBytes_length]; omega)]
    unfold rdAuthReq
    rw [rdBytes_trunc r.app_id h1 j (by rw [serBytes_length]; omega)]
  · rw [take_append_ge _ _ j (by rw [serBytes_length]; omega), serBytes_length]
    unfold rdAuthReq
    simp only [rdBytes_roundtrip r.app_id h1]
    rcases lt_or_ge (j - (8 + r.app_id.length)) (8 + r.app_name.length) with hlt2 | hge2
    · rw [take_append_lt _ _ _ (by rw [serBytes_length]; omega)]
      simp only [rdBytes_trunc r.app_name h2 (j - (8 + r.app_id.length))
        (by rw [serBytes_length]; omega)]
    · rw [take_append_ge _ _ _ (by rw [serBytes_length]; omega), serBytes_length]
      simp only [rdBytes_roundtrip r.app_name h2]
      rw [rdBytes_trunc r.app_vendor h3 _ (by rw [serBytes_length]; omega)]

theorem rdIpcReq_trunc (q : IpcReq) (h : q.valid) (j : Nat)
    (hj : j < q.ser.length) : rdIpcReq (q.ser.take j) = none := by
  cases q with
  | Auth r =>
    have hr : r.valid := h
    simp only [IpcReq.ser, List.length_append, natLE_length] at hj
    rw [IpcReq.ser]
    rcases lt_or_ge j 4 with hlt | hge
    · unfold rdIpcReq
      rw [rdLE_take_none 4 j _ hlt]
    · rw [take_append_ge _ _ j (by rw [natLE_length]; omega), natLE_length]
      unfold rdIpcReq
      simp [rdLE_roundtrip 4 0 (by norm_num), rdAuthReq_trunc r hr (j - 4) (by omega)]

theorem rdAuthGranted_ser_length_lt (g : AuthGranted) : 0 < g.ser.length := by
  unfold AuthGranted.ser
  rw [List.length_append, serBytes_length]
  omega

theorem rdResAuth_trunc (x : Except IpcError AuthGranted)
    (h : IpcResp.valid (.Auth x)) (j : Nat) (hj : j < (serResAuth x).length) :
    rdResAuth ((serResAuth x).take j) = none := by
  cases x with
  | ok g =>
    rw [serResAuth] at hj ⊢
    rw [List.length_append, natLE_length] at hj
    rcases lt_or_ge j 4 with hlt | hge
    · unfold rdResAuth
      rw [rdLE_take_none 4 j _ hlt]
    · rw [take_append_ge _ _ j (by rw [natLE_length]; omega), natLE_length]
      unfold rdResAuth
      simp [rdLE_roundtrip 4 0 (by norm_num), rdAuthGranted_trunc g h (j - 4) (by omega)]
  | error e =>
    rw [serResAuth] at hj ⊢
    rw [List.length_append, natLE_length] at hj
    rcases lt_or_ge j 4 with hlt | hge
    · unfold rdResAuth
      rw [rdLE_take_none 4 j _ hlt]
    · rw [take_append_ge _ _ j (by rw [natLE_length]; omega), natLE_length]
      unfold rdResAuth
      simp [rdLE_roundtrip 4 1 (by norm_num), rdIpcError_trunc e h (j - 4) (by omega)]

theorem rdResConfig_trunc (x : Except IpcError BootstrapConfig)
    (h : IpcResp.valid (.Unregistered x)) (j : Nat) (hj : j < (serResConfig x).length) :
    rdResConfig ((serResConfig x).take j) = none := by
  cases x with
  | ok c =>
    rw [serResConfig] at hj ⊢
    rw [List.length_append, natLE_length] at hj
    rcases lt_or_ge j 4 with hlt | hge
    · unfold rdResConfig
      rw [rdLE_take_none 4 j _ hlt]
    · rw [take_append_ge _ _ j (by rw [natLE_length]; omega), natLE_length]
      unfold rdResConfig
      simp [rdLE_roundtrip 4 0 (by norm_num), rdConfig_trunc c h (j - 4) (by omega)]
  | error e =>
    rw [serResConfig] at hj ⊢
    rw [List.length_append, natLE_length] at hj
    rcases lt_or_ge j 4 with hlt | hge
    · unfold rdResConfig
      rw [rdLE_take_none 4 j _ hlt]
    · rw [take_append_ge _ _ j (by rw [natLE_length]; omega), natLE_length]
      unfold rdResConfig
      simp [rdLE_roundtrip 4 1 (by norm_num), rdIpcError_trunc e h (j - 4) (by omega)]

theorem rdIpcResp_trunc (p : IpcResp) (h : p.valid) (j : Nat)
    (hj : j < p.ser.length) : rdIpcResp (p.ser.take j) = none := by
  cases p with
  | Auth x =>
    rw [IpcResp.ser] at hj ⊢
    rw [List.length_append, natLE_length] at hj
    rcases lt_or_ge j 4 with hlt | hge
    · unfold rdIpcResp
      rw [rdLE_take_none 4 j _ hlt]
    · rw [take_append_ge _ _ j (by rw [natLE_length]; omega), natLE_length]
      unfold rdIpcResp
      simp [rdLE_roundtrip 4 0 (by norm_num), rdResAuth_trunc x h (j - 4) (by omega)]
  | Unregistered x =>
    rw [IpcResp.ser] at hj ⊢
    rw [List.length_append, natLE_length] at hj
    rcases lt_or_ge j 4 with hlt | hge
    · unfold rdIpcResp
      rw [rdLE_take_none 4 j _ hlt]
    · rw [take_append_ge _ _ j (by rw [natLE_length]; omega), natLE_length]
      unfold rdIpcResp
      simp [rdLE_roundtrip 4 1 (by norm_num), rdResConfig_trunc x h (j - 4) (by omega)]

/-- A strict prefix of the bincode encoding of a valid message does not
deserialize: the reader runs out of bytes before the message completes. -/
theorem rdIpcMsg_trunc (m : IpcMsg) (h : m.valid) (j : Nat)
    (hj : j < m.ser.length) : rdIpcMsg (m.ser.take j) = none := by
  have h232 : (256 : Nat) ^ 4 = 2 ^ 32 := by norm_num
  cases m with
  | Req req_id q =>
    obtain ⟨hid, hq⟩ := h
    rw [IpcMsg.ser] at hj ⊢
    rw [List.append_assoc] at hj ⊢
    simp only [List.length_append, natLE_length] at hj
    rcases lt_or_ge j 4 with hlt | hge
    · unfold rdIpcMsg
      rw [rdLE_take_none 4 j _ hlt]
    · rcases lt_or_ge (j - 4) 4 with hlt2 | hge2
      · rw [take_append_ge _ _ j (by rw [natLE_length]; omega), natLE_length]
        unfold rdIpcMsg
        simp [rdLE_roundtrip 4 0 (by norm_num),
          rdLE_take_none 4 (j - 4) (natLE 4 req_id ++ q.ser) hlt2]
      · rw [take_append_ge _ _ j (by rw [natLE_length]; omega), natLE_length,
          take_append_ge _ _ _ (by rw [natLE_length]; omega), natLE_length]
        unfold rdIpcMsg
        simp [rdLE_roundtrip 4 0 (by norm_num), rdLE_roundtrip 4 req_id (by omega),
          rdIpcReq_trunc q hq (j - 4 - 4) (by omega)]
  | Resp req_id p =>
    obtain ⟨hid, hp⟩ := h
    rw [IpcMsg.ser] at hj ⊢
    rw [List.append_assoc] at hj ⊢
    simp only [List.length_append, natLE_length] at hj
    rcases lt_or_ge j 4 with hlt | hge
    · unfold rdIpcMsg
      rw [rdLE_take_none 4 j _ hlt]
    · rcases lt_or_ge (j - 4) 4 with hlt2 | hge2
      · rw [take_append_ge _ _ j (by rw [natLE_length]; omega), natLE_length]
        unfold rdIpcMsg
        simp [rdLE_roundtrip 4 1 (by norm_num),
          rdLE_take_none 4 (j - 4) (natLE 4 req_id ++ p.ser) hlt2]
      · rw [take_append_ge _ _ j (by rw [natLE_length]; omega), natLE_length,
          take_append_ge _ _ _ (by rw [natLE_length]; omega), natLE_length]
        unfold rdIpcMsg
        simp [rdLE_roundtrip 4 1 (by norm_num), rdLE_roundtrip 4 req_id (by omega),
          rdIpcResp_trunc p hp (j - 4 - 4) (by omega)]
  | Revoked a =>
    obtain ⟨hlen, _⟩ := h
    rw [IpcMsg.ser] at hj ⊢
    simp only [List.length_append, natLE_length, serBytes_length] at hj
    rcases lt_or_ge j 4 with hlt | hge
    · unfold rdIpcMsg
      rw [rdLE_take_none 4 j _ hlt]
    · rw [take_append_ge _ _ j (by rw [natLE_length]; omega), natLE_length]
      unfold rdIpcMsg
      simp [rdLE_roundtrip 4 2 (by norm_num),
        rdBytes_trunc a hlen (j - 4) (by rw [serBytes_length]; omega)]
  | Err e =>
    rw [IpcMsg.ser] at hj ⊢
    simp only [List.length_append, natLE_length] at hj
    rcases lt_or_ge j 4 with hlt | hge
    · unfold rdIpcMsg
      rw [rdLE_take_none 4 j _ hlt]
    · rw [take_append_ge _ _ j (by rw [natLE_length]; omega), natLE_length]
      unfold rdIpcMsg
      simp [rdLE_roundtrip 4 3 (by norm_num), rdIpcError_trunc e h (j - 4) (by omega)]

/-! ### The base32-no-padding text encoding

`data_encoding::BASE32_NOPAD`: the RFC 4648 base32 alphabet, no padding
characters.  Encoding walks the most-significant-first bit string of the
input in 5-bit groups, zero-filling the final group; decoding rejects
characters outside the alphabet, encoded lengths that no byte string can
produce (length ≡ 1, 3 or 6 mod 8), and nonzero trailing bits. -/

/-- The base32 alphabet `A`–`Z`, `2`–`7`. -/
def b32chars : List Char :=
  ['A', 'B', 'C', 'D', 'E', 'F', 'G', 'H', 'I', 'J', 'K', 'L', 'M',
   'N', 'O', 'P', 'Q', 'R', 'S', 'T', 'U', 'V', 'W', 'X', 'Y', 'Z',
   '2', '3', '4', '5', '6', '7']

/-- The symbol for a 5-bit value. -/
def b32char (n : Nat) : Char := b32chars.getD n 'A'

def b32index : List Char → Char → Option Nat
  | [], _ => none
  | a :: t, c => if a = c then some 0 else (b32index t c).map (· + 1)

/-- The 5-bit value of a symbol; `none` outside the alphabet. -/
def b32val (c : Char) : Option Nat := b32index b32chars c

theorem b32val_b32char : ∀ v, v < 32 → b32val (b32char v) = some v := by decide

/-- Look up the 5-bit values of every symbol, failing on the first
character outside the alphabet. -/
def b32vals : List Char → Option (List Nat)
  | [] => some []
  | c :: t =>
    match b32val c with
    | none => none
    | some v =>
      match b32vals t with
      | none => none
      | some vs => some (v :: vs)


/-- Split a bit string into 5-bit group values, zero-filling the final
group on the right. -/
def bitsToVals : List Bool → List Nat
  | [] => []
  | [b0] => [bitsVal [b0] * 16]
  | [b0, b1] => [bitsVal [b0, b1] * 8]
  | [b0, b1, b2] => [bitsVal [b0, b1, b2] * 4]
  | [b0, b1, b2, b3] => [bitsVal [b0, b1, b2, b3] * 2]
  | b0 :: b1 :: b2 :: b3 :: b4 :: t => bitsVal [b0, b1, b2, b3, b4] :: bitsToVals t

/-- `BASE32_NOPAD.encode`. -/
def base32encode (bytes : List Nat) : List Char :=
  (bitsToVals (bytesToBits bytes)).map b32char

/-- `BASE32_NOPAD.decode`. -/
def base32decode (l : List Char) : Option (List Nat) :=
  if l.length % 8 = 1 ∨ l.length % 8 = 3 ∨ l.length % 8 = 6 then none
  else
    match b32vals l with
    | none => none
    | some vals =>
      let bits := (vals.map (natBits 5)).flatten
      if (bits.drop (l.length * 5 / 8 * 8)).all (fun b => b == false) then
        some (bitsToBytes bits)
      else none

theorem bitsToVals_length (l : List Bool) :
    (bitsToVals l).length = (l.length + 4) / 5 := by
  induction l using bitsToVals.induct <;> simp_all [bitsToVals] <;> omega

theorem bitsToVals_lt (l : List Bool) : ∀ v ∈ bitsToVals l, v < 32 := by
  induction l using bitsToVals.induct with
  | case1 => simp [bitsToVals]
  | case2 b0 =>
    have := bitsVal_lt [b0]
    simp only [List.length_cons, List.length_nil] at this
    simp [bitsToVals]
    omega
  | case3 b0 b1 =>
    have := bitsVal_lt [b0, b1]
    simp only [List.length_cons, List.length_nil] at this
    simp [bitsToVals]
    omega
  | case4 b0 b1 b2 =>
    have := bitsVal_lt [b0, b1, b2]
    simp only [List.length_cons, List.length_nil] at this
    simp [bitsToVals]
    omega
  | case5 b0 b1 b2 b3 =>
    have := bitsVal_lt [b0, b1, b2, b3]
    simp only [List.length_cons, List.length_nil] at this
    simp [bitsToVals]
    omega
  | case6 b0 b1 b2 b3 b4 t ih =>
    have := bitsVal_lt [b0, b1, b2, b3, b4]
    simp only [List.length_cons, List.length_nil] at this
    intro v hv
    simp only [bitsToVals, List.mem_cons] at hv
    rcases hv with h | h
    · omega
    · exact ih v h

theorem bitsVal_replicate_false (z : Nat) :
    bitsVal (List.replicate z false) = 0 := by
  induction z with
  | zero => rfl
  | succ z ih =>
    rw [List.replicate_succ' z false, bitsVal_snoc, ih]
    simp

/-- Unpacking the 5-bit groups of a bit string recovers the bit string
followed by its zero fill. -/
theorem flatten_bitsToVals (l : List Bool) :
    ((bitsToVals l).map (natBits 5)).flatten =
      l ++ List.replicate ((5 - l.length % 5) % 5) false := by
  induction l using bitsToVals.induct with
  | case1 => rfl
  | case2 b0 =>
    have h : bitsVal [b0] * 16 = bitsVal ([b0] ++ List.replicate 4 false) := by
      rw [bitsVal_append, bitsVal_replicate_false]
      simp
    simp only [bitsToVals, List.map_cons, List.map_nil, List.flatten_cons,
      List.flatten_nil, List.append_nil, h]
    have := natBits_bitsVal ([b0] ++ List.replicate 4 false)
    simp only [List.length_append, List.length_cons, List.length_nil,
      List.length_replicate] at this
    rw [this]
    rfl
  | case3 b0 b1 =>
    have h : bitsVal [b0, b1] * 8 = bitsVal ([b0, b1] ++ List.replicate 3 false) := by
      rw [bitsVal_append, bitsVal_replicate_false]
      simp
    simp only [bitsToVals, List.map_cons, List.map_nil, List.flatten_cons,
      List.flatten_nil, List.append_nil, h]
    have := natBits_bitsVal ([b0, b1] ++ List.replicate 3 false)
    simp only [List.length_append, List.length_cons, List.length_nil,
      List.length_replicate] at this
    rw [this]
    rfl
  | case4 b0 b1 b2 =>
    have h : bitsVal [b0, b1, b2] * 4 = bitsVal ([b0, b1, b2] ++ List.replicate 2 false) := by
      rw [bitsVal_append, bitsVal_replicate_false]
      simp
    simp only [bitsToVals, List.map_cons, List.map_nil, List.flatten_cons,
      List.flatten_nil, List.append_nil, h]
    have := natBits_bitsVal ([b0, b1, b2] ++ List.replicate 2 false)
    simp only [List.length_append, List.length_cons, List.length_nil,
      List.length_replicate] at this
    rw [this]
    rfl
  | case5 b0 b1 b2 b3 =>
    have h : bitsVal [b0, b1, b2, b3] * 2 =
        bitsVal ([b0, b1, b2, b3] ++ List.replicate 1 false) := by
      rw [bitsVal_append, bitsVal_replicate_false]
      simp
    simp only [bitsToVals, List.map_cons, List.map_nil, List.flatten_cons,
      List.flatten_nil, List.append_nil, h]
    have := natBits_bitsVal ([b0, b1, b2, b3] ++ List.replicate 1 false)
    simp only [List.length_append, List.length_cons, List.length_nil,
      List.length_replicate] at this
    rw [this]
    rfl
  | case6 b0 b1 b2 b3 b4 t ih =>
    simp only [bitsToVals, List.map_cons, List.flatten_cons, ih]
    have h5 := natBits_bitsVal [b0, b1, b2, b3, b4]
    simp only [List.length_cons, List.length_nil] at h5
    rw [h5]
    have : (b0 :: b1 :: b2 :: b3 :: b4 :: t).length % 5 = t.length % 5 := by
      simp only [List.length_cons]
      omega
    rw [this]
    simp

theorem b32vals_map (vals : List Nat) (h : ∀ v ∈ vals, v < 32) :
    b32vals (vals.map b32char) = some vals := by
  induction vals with
  | nil => rfl
  | cons v t ih =>
    have hv := h v (List.mem_cons_self _ _)
    have ht : ∀ x ∈ t, x < 32 := fun x hx => h x (List.mem_cons_of_mem _ hx)
    rw [List.map_cons]
    unfold b32vals
    rw [b32val_b32char v hv, ih ht]

theorem base32encode_length (bytes : List Nat) :
    (base32encode bytes).length = (8 * bytes.length + 4) / 5 := by
  unfold base32encode
  rw [List.length_map, bitsToVals_length, bytesToBits_length]

theorem bitsToBytes_take (bytes : List Nat) (h : ∀ b ∈ bytes, b < 256) (j : Nat) :
    bitsToBytes ((bytesToBits bytes).take j) = bytes.take (j / 8) := by
  induction bytes generalizing j with
  | nil => simp [bytesToBits, bitsToBytes]
  | cons b t ih =>
    have hb : b < 256 := h b (List.mem_cons_self _ _)
    have ht : ∀ x ∈ t, x < 256 := fun x hx => h x (List.mem_cons_of_mem _ hx)
    simp only [bytesToBits] at ih ⊢
    rw [List.map_cons, List.flatten_cons]
    rcases lt_or_ge j 8 with hlt | hge
    · rw [take_append_lt _ _ j (by rw [natBits_length]; omega)]
      rw [bitsToBytes_short _ (by simp only [List.length_take, natBits_length]; omega)]
      rw [Nat.div_eq_of_lt hlt]
      simp
    · rw [take_append_ge _ _ j (by rw [natBits_length]; omega), natBits_length]
      rw [bitsToBytes_append8 _ _ (natBits_length 8 b)]
      have h28 : b % 2 ^ 8 = b := by
        have : (2 : Nat) ^ 8 = 256 := by norm_num
        omega
      rw [bitsVal_natBits, h28, ih ht (j - 8)]
      have hq : j / 8 = (j - 8) / 8 + 1 := by omega
      rw [hq]
      rfl

/-- The base32 round trip: decoding the canonical encoding of a byte
string yields the byte string. -/
theorem base32decode_encode (bytes : List Nat) (h : ∀ b ∈ bytes, b < 256) :
    base32decode (base32encode bytes) = some bytes := by
  have hL : (base32encode bytes).length = (8 * bytes.length + 4) / 5 :=
    base32encode_length bytes
  have hmod : ¬((base32encode bytes).length % 8 = 1 ∨
      (base32encode bytes).length % 8 = 3 ∨ (base32encode bytes).length % 8 = 6) := by
    rw [hL]
    omega
  have hnb : (base32encode bytes).length * 5 / 8 = bytes.length := by
    rw [hL]
    omega
  unfold base32decode
  rw [if_neg hmod, hnb]
  unfold base32encode
  rw [b32vals_map _ (bitsToVals_lt _)]
  simp only
  rw [flatten_bitsToVals,
    List.drop_left' (by rw [bytesToBits_length]; ring)]
  have hall : (List.replicate ((5 - (bytesToBits bytes).length % 5) % 5) false).all
      (fun b => b == false) = true := by simp
  rw [hall]
  have hz : (List.replicate ((5 - (bytesToBits bytes).length % 5) % 5) false).length < 8 := by
    rw [List.length_replicate]
    omega
  simp only [if_true]
  rw [bitsToBytes_bytesToBits bytes _ h hz]

theorem flatten_take5 (vals : List Nat) (k : Nat) :
    ((vals.take k).map (natBits 5)).flatten = ((vals.map (natBits 5)).flatten).take (5 * k) := by
  induction vals generalizing k with
  | nil => simp
  | cons v t ih =>
    cases k with
    | zero => simp
    | succ k =>
      rw [List.take_succ_cons, List.map_cons, List.map_cons, List.flatten_cons,
        List.flatten_cons, ih k,
        take_append_ge _ _ _ (by rw [natBits_length]; omega), natBits_length]
      have : 5 * (k + 1) - 5 = 5 * k := by omega
      rw [this]

/-- Decoding a strict prefix of a canonical base32 encoding either
fails or yields a strict prefix of the original byte string. -/
theorem base32decode_encode_take (bytes : List Nat) (h : ∀ b ∈ bytes, b < 256)
    (k : Nat) (hk : k < (base32encode bytes).length) :
    base32decode ((base32encode bytes).take k) = none ∨
    ∃ j, j < bytes.length ∧
      base32decode ((base32encode bytes).take k) = some (bytes.take j) := by
  have hL : (base32encode bytes).length = (8 * bytes.length + 4) / 5 :=
    base32encode_length bytes
  have hlen : ((base32encode bytes).take k).length = k := by
    rw [List.length_take]
    omega
  have h5k : 5 * k < 8 * bytes.length := by omega
  by_cases hmod : (k % 8 = 1 ∨ k % 8 = 3 ∨ k % 8 = 6)
  · left
    unfold base32decode
    rw [hlen, if_pos hmod]
  · unfold base32decode
    rw [hlen, if_neg hmod]
    unfold base32encode
    rw [← List.map_take, b32vals_map _ (fun v hv => bitsToVals_lt _ v (List.mem_of_mem_take hv))]
    simp only
    rw [flatten_take5, flatten_bitsToVals,
      take_append_lt _ _ _ (by rw [bytesToBits_length]; omega)]
    by_cases hall : ((((bytesToBits bytes).take (5 * k)).drop (k * 5 / 8 * 8)).all
        (fun b => b == false)) = true
    · right
      refine ⟨5 * k / 8, by omega, ?_⟩
      rw [hall]
      simp only [if_true]
      rw [bitsToBytes_take bytes h (5 * k)]
    · left
      rw [Bool.not_eq_true] at hall
      rw [hall]
      simp

/-! ### Serialized bytes are bytes -/

theorem serBytes_lt (s : List Nat) (h : ∀ b ∈ s, b < 256) :
    ∀ b ∈ serBytes s, b < 256 := by
  intro b hb
  rcases List.mem_append.mp hb with h1 | h1
  · exact natLE_lt _ _ b h1
  · exact h b h1

theorem sockSer_lt (a : SocketAddr) : ∀ b ∈ a.ser, b < 256 := by
  intro b hb
  rcases List.mem_append.mp hb with h1 | h1
  · exact natLE_lt _ _ b h1
  · exact natLE_lt _ _ b h1

theorem serConfig_lt (c : BootstrapConfig) : ∀ b ∈ serConfig c, b < 256 := by
  intro b hb
  rcases List.mem_append.mp hb with h1 | h1
  · exact natLE_lt _ _ b h1
  · obtain ⟨l, hl, hbl⟩ := List.mem_flatten.mp h1
    obtain ⟨a, _, rfl⟩ := List.mem_map.mp hl
    exact sockSer_lt a b hbl

theorem authGrantedSer_lt (g : AuthGranted) (h : g.valid) :
    ∀ b ∈ g.ser, b < 256 := by
  intro b hb
  rcases List.mem_append.mp hb with h1 | h1
  · exact serBytes_lt _ h.1.2 b h1
  · exact serConfig_lt _ b h1

theorem ipcErrorSer_lt (e : IpcError) (h : e.valid) : ∀ b ∈ e.ser, b < 256 := by
  cases e with
  | Unexpected d =>
    intro b hb
    rcases List.mem_append.mp hb with h1 | h1
    · exact natLE_lt _ _ b h1
    · exact serBytes_lt _ h.2 b h1
  | AuthDenied => exact natLE_lt _ _
  | InvalidMsg => exact natLE_lt _ _
  | EncodeDecodeError => exact natLE_lt _ _
  | AlreadyAuthorised => exact natLE_lt _ _
  | UnknownApp => exact natLE_lt _ _

theorem authReqSer_lt (r : AuthReq) (h : r.valid) : ∀ b ∈ r.ser, b < 256 := by
  obtain ⟨⟨_, h1⟩, ⟨_, h2⟩, ⟨_, h3⟩⟩ := h
  intro b hb
  rcases List.mem_append.mp hb with hc | hc
  · rcases List.mem_append.mp hc with hd | hd
    · exact serBytes_lt _ h1 b hd
    · exact serBytes_lt _ h2 b hd
  · exact serBytes_lt _ h3 b hc

theorem ipcReqSer_lt (q : IpcReq) (h : q.valid) : ∀ b ∈ q.ser, b < 256 := by
  cases q with
  | Auth r =>
    intro b hb
    rcases List.mem_append.mp hb with h1 | h1
    · exact natLE_lt _ _ b h1
    · exact authReqSer_lt r h b h1

theorem serResAuth_lt (x : Except IpcError AuthGranted)
    (h : IpcResp.valid (.Auth x)) : ∀ b ∈ serResAuth x, b < 256 := by
  cases x with
  | ok g =>
    intro b hb
    rcases List.mem_append.mp hb with h1 | h1
    · exact natLE_lt _ _ b h1
    · exact authGrantedSer_lt g h b h1
  | error e =>
    intro b hb
    rcases List.mem_append.mp hb with h1 | h1
    · exact natLE_lt _ _ b h1
    · exact ipcErrorSer_lt e h b h1

theorem serResConfig_lt (x : Except IpcError BootstrapConfig)
    (h : IpcResp.valid (.Unregistered x)) : ∀ b ∈ serResConfig x, b < 256 := by
  cases x with
  | ok c =>
    intro b hb
    rcases List.mem_append.mp hb with h1 | h1
    · exact natLE_lt _ _ b h1
    · exact serConfig_lt c b h1
  | error e =>
    intro b hb
    rcases List.mem_append.mp hb with h1 | h1
    · exact natLE_lt _ _ b h1
    · exact ipcErrorSer_lt e h b h1

theorem ipcRespSer_lt (p : IpcResp) (h : p.valid) : ∀ b ∈ p.ser, b < 256 := by
  cases p with
  | Auth x =>
    intro b hb
    rcases List.mem_append.mp hb with h1 | h1
    · exact natLE_lt _ _ b h1
    · exact serResAuth_lt x h b h1
  | Unregistered x =>
    intro b hb
    rcases List.mem_append.mp hb with h1 | h1
    · exact natLE_lt _ _ b h1
    · exact serResConfig_lt x h b h1

theorem ipcMsgSer_lt (m : IpcMsg) (h : m.valid) : ∀ b ∈ m.ser, b < 256 := by
  cases m with
  | Req req_id q =>
    intro b hb
    rcases List.mem_append.mp hb with hc | hc
    · rcases List.mem_append.mp hc with hd | hd
      · exact natLE_lt _ _ b hd
      · exact natLE_lt _ _ b hd
    · exact ipcReqSer_lt q h.2 b hc
  | Resp req_id p =>
    intro b hb
    rcases List.mem_append.mp hb with hc | hc
    · rcases List.mem_append.mp hc with hd | hd
      · exact natLE_lt _ _ b hd
      · exact natLE_lt _ _ b hd
    · exact ipcRespSer_lt p h.2 b hc
  | Revoked a =>
    intro b hb
    rcases List.mem_append.mp hb with h1 | h1
    · exact natLE_lt _ _ b h1
    · exact serBytes_lt _ h.2 b h1
  | Err e =>
    intro b hb
    rcases List.mem_append.mp hb with h1 | h1
    · exact natLE_lt _ _ b h1
    · exact ipcErrorSer_lt e h b h1

/-! ### The wire codec (`encode_msg` / `decode_msg`, `ipc/mod.rs`) -/

/-- The string `encode_msg` produces: the multicodec-style scheme
character `b` followed by the base32-no-padding encoding of the bincode
serialization. -/
def encodeStr (msg : IpcMsg) : String := ⟨'b' :: base32encode msg.ser⟩

/-- Encode `IpcMsg` into string, using base32 encoding (`encode_msg` in
`ipc/mod.rs`); serialization cannot fail on these values, so the result
is always `Ok`. -/
def encode_msg (msg : IpcMsg) : Except IpcError String := .ok (encodeStr msg)

/-- Decode `IpcMsg` encoded with base32 encoding (`decode_msg` in
`ipc/mod.rs`).  An empty input fails with `InvalidMsg`; a scheme
character other than `b`/`B` fails with `EncodeDecodeError`.  The `?`
conversions of the base32 and bincode error types into `IpcError` are
modelled from the spec, which collapses both to `EncodeDecodeError`
(the `From` impls live outside the sources). -/
def decode_msg (encoded : String) : Except IpcError IpcMsg :=
  match encoded.data with
  | [] => .error .InvalidMsg
  | c :: chars =>
    if c = 'b' ∨ c = 'B' then
      match base32decode chars with
      | none => .error .EncodeDecodeError
      | some decoded =>
        match rdIpcMsg decoded with
        | none => .error .EncodeDecodeError
        | some (msg, _) => .ok msg
    else .error .EncodeDecodeError

theorem decode_msg_mk_cons (c : Char) (chars : List Char) :
    decode_msg ⟨c :: chars⟩ =
      if c = 'b' ∨ c = 'B' then
        match base32decode chars with
        | none => .error .EncodeDecodeError
        | some decoded =>
          match rdIpcMsg decoded with
          | none => .error .EncodeDecodeError
          | some (msg, _) => .ok msg
      else .error .EncodeDecodeError := rfl

/-! ### Request-id generation (`gen_req_id`, `ipc/mod.rs`) -/

/-- `u32::max_value()`. -/
def u32max : Nat := 2 ^ 32 - 1

/-- Generate unique request ID (`gen_req_id`):
`rand::thread_rng().gen_range(0, u32::max_value()) + 1`.  The randomly
sampled value is injected as the argument; `gen_range(0, hi)` draws
uniformly from `[0, hi)`, i.e. the sample satisfies `sample < u32max`. -/
def gen_req_id (sample : Nat) : Nat := sample + 1

/-! ### Debug renderings

Concrete stand-ins for Rust's `{:?}` formatting, used by the
classifier's and orchestrator's error messages. -/

def debugErr : IpcError → String
  | .AuthDenied => "AuthDenied"
  | .InvalidMsg => "InvalidMsg"
  | .EncodeDecodeError => "EncodeDecodeError"
  | .AlreadyAuthorised => "AlreadyAuthorised"
  | .UnknownApp => "UnknownApp"
  | .Unexpected _ => "Unexpected(..)"

def debugMsg : IpcMsg → String
  | .Req req_id _ => "Req(" ++ toString req_id ++ ", ..)"
  | .Resp req_id _ => "Resp(" ++ toString req_id ++ ", ..)"
  | .Revoked _ => "Revoked(..)"
  | .Err e => "Err(" ++ debugErr e ++ ")"

end ipc

/-! ## The application-side classifier (`sn_api/src/api/app/helpers.rs`)

`decode_auth_response_ipc_msg` parses its input with
`serde_json::from_str` — JSON, not the wire codec — and matches on a
tuple-style `IpcMsg` (`Resp(IpcResp)` with no request id), the shape its
(missing) defining module gives the type at this layer.  The JSON data
model below follows serde's externally-tagged encoding of that shape;
string escapes are not modelled (an escape character fails the parse),
which only restricts the modelled input set. -/

namespace sn_api

/-- Modelled from the spec: `crate::Error` is defined outside the
sources; only the variants the modelled functions construct appear. -/
inductive Error : Type
  | AuthError (msg : String)
  | InvalidInput (msg : String)
  deriving DecidableEq

namespace app

/-- Ipc error as the classifier sees it (same taxonomy as the wire
`IpcError`; detail carried as a string). -/
inductive IpcError : Type
  | AuthDenied
  | InvalidMsg
  | EncodeDecodeError
  | AlreadyAuthorised
  | UnknownApp
  | Unexpected (detail : String)
  deriving DecidableEq

/-- Modelled from the spec: the application identity of a request. -/
structure AuthReq : Type where
  app_id : String
  app_name : String
  app_vendor : String
  deriving DecidableEq

/-- Modelled from the spec: the granted credential bundle is opaque to
this core ("opaque signed bundle"); it is modelled as an opaque string
whose JSON form is a JSON string. -/
abbrev AuthGranted : Type := String

/-- Modelled from the spec: bootstrap endpoints, as a list of address
strings. -/
abbrev BootstrapConfig : Type := List String

inductive IpcReq : Type
  | Auth (req : AuthReq)
  deriving DecidableEq

/-- Modelled from `helpers.rs`'s patterns: `Auth(Result<AuthGranted, _>)`
and `Unregistered(Result<BootstrapConfig, _>)`. -/
inductive IpcResp : Type
  | Auth (res : Except IpcError AuthGranted)
  | Unregistered (res : Except IpcError BootstrapConfig)

/-- The tuple-style message shape `helpers.rs` matches
(`IpcMsg::Resp(IpcResp::Auth(..))`): its defining module at this layer
is not among the sources, so the variant payloads follow the spec. -/
inductive IpcMsg : Type
  | Req (req : IpcReq)
  | Resp (response : IpcResp)
  | Revoked (app_id : String)
  | Err (e : IpcError)

instance : DecidableEq IpcResp := fun a b =>
  match a, b with
  | .Auth x, .Auth y =>
    if h : x = y then isTrue (by rw [h]) else isFalse (by intro hc; cases hc; exact h rfl)
  | .Unregistered x, .Unregistered y =>
    if h : x = y then isTrue (by rw [h]) else isFalse (by intro hc; cases hc; exact h rfl)
  | .Auth _, .Unregistered _ => isFalse (by intro hc; cases hc)
  | .Unregistered _, .Auth _ => isFalse (by intro hc; cases hc)

instance : DecidableEq IpcMsg := fun a b =>
  match a, b with
  | .Req x, .Req y =>
    if h : x = y then isTrue (by rw [h]) else isFalse (by intro hc; cases hc; exact h rfl)
  | .Resp x, .Resp y =>
    if h : x = y then isTrue (by rw [h]) else isFalse (by intro hc; cases hc; exact h rfl)
  | .Revoked x, .Revoked y =>
    if h : x = y then isTrue (by rw [h]) else isFalse (by intro hc; cases hc; exact h rfl)
  | .Err x, .Err y =>
    if h : x = y then isTrue (by rw [h]) else isFalse (by intro hc; cases hc; exact h rfl)
  | .Req _, .Resp _ => isFalse (by intro hc; cases hc)
  | .Req _, .Revoked _ => isFalse (by intro hc; cases hc)
  | .Req _, .Err _ => isFalse (by intro hc; cases hc)
  | .Resp _, .Req _ => isFalse (by intro hc; cases hc)
  | .Resp _, .Revoked _ => isFalse (by intro hc; cases hc)
  | .Resp _, .Err _ => isFalse (by intro hc; cases hc)
  | .Revoked _, .Req _ => isFalse (by intro hc; cases hc)
  | .Revoked _, .Resp _ => isFalse (by intro hc; cases hc)
  | .Revoked _, .Err _ => isFalse (by intro hc; cases hc)
  | .Err _, .Req _ => isFalse (by intro hc; cases hc)
  | .Err _, .Resp _ => isFalse (by intro hc; cases hc)
  | .Err _, .Revoked _ => isFalse (by intro hc; cases hc)

/-- Modelled from the spec: the classifier's outcome type
(`AuthResponseType` in the authenticator module, not among the
sources). -/
inductive AuthResponseType : Type
  | Registered (g : AuthGranted)
  | Unregistered (c : BootstrapConfig)
  deriving DecidableEq

end app

namespace app

/-! ### A JSON reader for the classifier's message type

`serde_json::from_str::<IpcMsg>` specialised to the externally-tagged
layout serde derives for this shape: an enum value is a one-key object
(unit variants of the error enum are bare strings), a struct is an
object with its fields in declaration order, and the modelled opaque
payloads are JSON strings. -/

/-- The `x7b` opening-brace character. -/
def lbrace : Char := Char.ofNat 123

/-- The `x7d` closing-brace character. -/
def rbrace : Char := Char.ofNat 125

/-- The backslash character. -/
def bslash : Char := Char.ofNat 92

def isWs (c : Char) : Bool :=
  c == ' ' || c == Char.ofNat 9 || c == Char.ofNat 10 || c == Char.ofNat 13

/-- Skip JSON insignificant whitespace. -/
def skipWs : List Char → List Char
  | [] => []
  | c :: t => if isWs c then skipWs t else c :: t

/-- Consume one expected character. -/
def expectChar (c : Char) : List Char → Option (List Char)
  | [] => none
  | a :: t => if a = c then some t else none

/-- The body of a JSON string up to the closing quote; escapes are not
modelled, so a backslash fails. -/
def parseStrAux : List Char → Option (List Char × List Char)
  | [] => none
  | c :: t =>
    if c = '"' then some ([], t)
    else if c = bslash then none
    else
      match parseStrAux t with
      | none => none
      | some (cs, r) => some (c :: cs, r)

/-- A JSON string literal (after optional whitespace). -/
def parseStr (l : List Char) : Option (String × List Char) :=
  match expectChar '"' (skipWs l) with
  | none => none
  | some r =>
    match parseStrAux r with
    | none => none
    | some (cs, r2) => some (⟨cs⟩, r2)

def parseStrListAux : Nat → List Char → Option (List String × List Char)
  | 0, _ => none
  | fuel + 1, l =>
    match parseStr l with
    | none => none
    | some (s, r) =>
      match skipWs r with
      | ',' :: r2 =>
        match parseStrListAux fuel r2 with
        | none => none
        | some (t, r3) => some (s :: t, r3)
      | c :: r2 => if c = ']' then some ([s], r2) else none
      | [] => none

/-- A JSON array of strings. -/
def parseStrList (l : List Char) : Option (List String × List Char) :=
  match expectChar '[' (skipWs l) with
  | none => none
  | some r =>
    match skipWs r with
    | c :: r2 =>
      if c = ']' then some ([], r2)
      else parseStrListAux (c :: r2).length (c :: r2)
    | [] => none

/-- `key :` after an opening brace. -/
def parseKey (l : List Char) : Option (String × List Char) :=
  match expectChar lbrace (skipWs l) with
  | none => none
  | some r =>
    match parseStr r with
    | none => none
    | some (k, r2) =>
      match expectChar ':' (skipWs r2) with
      | none => none
      | some r3 => some (k, r3)

/-- The closing brace of an object. -/
def parseClose (l : List Char) : Option (List Char) :=
  expectChar rbrace (skipWs l)

/-- The error enum: unit variants as bare strings, `Unexpected` as a
one-key object with a string payload. -/
def parseIpcError (l : List Char) : Option (IpcError × List Char) :=
  match skipWs l with
  | [] => none
  | c :: t =>
    if c = '"' then
      match parseStr (c :: t) with
      | none => none
      | some (s, r) =>
        if s = "AuthDenied" then some (.AuthDenied, r)
        else if s = "InvalidMsg" then some (.InvalidMsg, r)
        else if s = "EncodeDecodeError" then some (.EncodeDecodeError, r)
        else if s = "AlreadyAuthorised" then some (.AlreadyAuthorised, r)
        else if s = "UnknownApp" then some (.UnknownApp, r)
        else none
    else
      match parseKey (c :: t) with
      | none => none
      | some (k, r) =>
        if k = "Unexpected" then
          match parseStr r with
          | none => none
          | some (d, r2) =>
            match parseClose r2 with
            | none => none
            | some r3 => some (.Unexpected d, r3)
        else none

/-- A `Result<_, IpcError>` with a string-payload `Ok`:
`{"Ok": "..."} / {"Err": ...}`. -/
def parseResultGranted (l : List Char) : Option (Except IpcError AuthGranted × List Char) :=
  match parseKey l with
  | none => none
  | some (k, r) =>
    if k = "Ok" then
      match parseStr r with
      | none => none
      | some (g, r2) =>
        match parseClose r2 with
        | none => none
        | some r3 => some (.ok g, r3)
    else if k = "Err" then
      match parseIpcError r with
      | none => none
      | some (e, r2) =>
        match parseClose r2 with
        | none => none
        | some r3 => some (.error e, r3)
    else none

/-- A `Result<BootstrapConfig, IpcError>`. -/
def parseResultConfig (l : List Char) : Option (Except IpcError BootstrapConfig × List Char) :=
  match parseKey l with
  | none => none
  | some (k, r) =>
    if k = "Ok" then
      match parseStrList r with
      | none => none
      | some (c, r2) =>
        match parseClose r2 with
        | none => none
        | some r3 => some (.ok c, r3)
    else if k = "Err" then
      match parseIpcError r with
      | none => none
      | some (e, r2) =>
        match parseClose r2 with
        | none => none
        | some r3 => some (.error e, r3)
    else none

def parseIpcResp (l : List Char) : Option (IpcResp × List Char) :=
  match parseKey l with
  | none => none
  | some (k, r) =>
    if k = "Auth" then
      match parseResultGranted r with
      | none => none
      | some (x, r2) =>
        match parseClose r2 with
        | none => none
        | some r3 => some (.Auth x, r3)
    else if k = "Unregistered" then
      match parseResultConfig r with
      | none => none
      | some (x, r2) =>
        match parseClose r2 with
        | none => none
        | some r3 => some (.Unregistered x, r3)
    else none

/-- The three identity fields of a request, in declaration order. -/
def parseAuthReq (l : List Char) : Option (AuthReq × List Char) :=
  match parseKey l with
  | none => none
  | some (k1, r1) =>
    if k1 = "app_id" then
      match parseStr r1 with
      | none => none
      | some (a, r2) =>
        match expectChar ',' (skipWs r2) with
        | none => none
        | some r3 =>
          match parseStr r3 with
          | none => none
          | some (k2, r4) =>
            if k2 = "app_name" then
              match expectChar ':' (skipWs r4) with
              | none => none
              | some r5 =>
                match parseStr r5 with
                | none => none
                | some (b, r6) =>
                  match expectChar ',' (skipWs r6) with
                  | none => none
                  | some r7 =>
                    match parseStr r7 with
                    | none => none
                    | some (k3, r8) =>
                      if k3 = "app_vendor" then
                        match expectChar ':' (skipWs r8) with
                        | none => none
                        | some r9 =>
                          match parseStr r9 with
                          | none => none
                          | some (c, r10) =>
                            match parseClose r10 with
                            | none => none
                            | some r11 => some (⟨a, b, c⟩, r11)
                      else none
            else none
    else none

def parseIpcReq (l : List Char) : Option (IpcReq × List Char) :=
  match parseKey l with
  | none => none
  | some (k, r) =>
    if k = "Auth" then
      match parseAuthReq r with
      | none => none
      | some (q, r2) =>
        match parseClose r2 with
        | none => none
        | some r3 => some (.Auth q, r3)
    else none

def parseIpcMsg (l : List Char) : Option (IpcMsg × List Char) :=
  match parseKey l with
  | none => none
  | some (k, r) =>
    if k = "Req" then
      match parseIpcReq r with
      | none => none
      | some (q, r2) =>
        match parseClose r2 with
        | none => none
        | some r3 => some (.Req q, r3)
    else if k = "Resp" then
      match parseIpcResp r with
      | none => none
      | some (p, r2) =>
        match parseClose r2 with
        | none => none
        | some r3 => some (.Resp p, r3)
    else if k = "Revoked" then
      match parseKey r with
      | none => none
      | some (k2, r2) =>
        if k2 = "app_id" then
          match parseStr r2 with
          | none => none
          | some (a, r3) =>
            match parseClose r3 with
            | none => none
            | some r4 =>
              match parseClose r4 with
              | none => none
              | some r5 => some (.Revoked a, r5)
        else none
    else if k = "Err" then
      match parseIpcError r with
      | none => none
      | some (e, r2) =>
        match parseClose r2 with
        | none => none
        | some r3 => some (.Err e, r3)
    else none

/-- `serde_json::from_str::<IpcMsg>`: one JSON value, then only
whitespace to the end of input. -/
def from_str (s : String) : Option IpcMsg :=
  match parseIpcMsg s.data with
  | none => none
  | some (m, r) => if skipWs r = [] then some m else none

end app

namespace app

/-- Concrete stand-in for Rust's `{:?}` rendering of the classifier's
error payloads. -/
def debugAppErr : IpcError → String
  | .AuthDenied => "AuthDenied"
  | .InvalidMsg => "InvalidMsg"
  | .EncodeDecodeError => "EncodeDecodeError"
  | .AlreadyAuthorised => "AlreadyAuthorised"
  | .UnknownApp => "UnknownApp"
  | .Unexpected d => "Unexpected(" ++ d ++ ")"

/-- Concrete stand-in for Rust's `{:?}` rendering of a whole message. -/
def debugAppMsg : IpcMsg → String
  | .Req _ => "Req(..)"
  | .Resp _ => "Resp(..)"
  | .Revoked a => "Revoked(" ++ a ++ ")"
  | .Err e => "Err(" ++ debugAppErr e ++ ")"

/-- `decode_auth_response_ipc_msg` (`app/helpers.rs`): parse the input
with `serde_json::from_str` (a parse failure becomes
`Error::InvalidInput("Failed to decode the credentials: ..")`), then
classify the message shape. -/
def decode_auth_response_ipc_msg (ipc_msg : String) : Except Error AuthResponseType :=
  match from_str ipc_msg with
  | none => .error (.InvalidInput "Failed to decode the credentials")
  | some (.Resp (.Auth (.ok authgranted))) => .ok (.Registered authgranted)
  | some (.Resp (.Auth (.error e))) => .error (.AuthError (debugAppErr e))
  | some (.Resp (.Unregistered (.ok config))) => .ok (.Unregistered config)
  | some (.Resp (.Unregistered (.error e))) => .error (.AuthError (debugAppErr e))
  | some other => .error (.AuthError (debugAppMsg other))

theorem skipWs_not (c : Char) (t : List Char) (h : isWs c = false) :
    skipWs (c :: t) = c :: t := by
  simp [skipWs, h]

theorem expectChar_ne (c a : Char) (t : List Char) (h : a ≠ c) :
    expectChar c (a :: t) = none := by
  simp [expectChar, h]

/-- A string the JSON reader accepts never carries the wire scheme
prefix: its first character is `x7b` or whitespace, so the wire decoder
rejects it. -/
theorem from_str_not_wire (s : String) (m : IpcMsg) (h : from_str s = some m) :
    ipc.decode_msg s = .error .EncodeDecodeError := by
  obtain ⟨l⟩ := s
  match l with
  | [] =>
    rw [show from_str ⟨[]⟩ = none from rfl] at h
    cases h
  | c :: rest =>
    rw [ipc.decode_msg_mk_cons, if_neg]
    rintro (rfl | rfl)
    · have hb : from_str ⟨'b' :: rest⟩ = none := by
        unfold from_str parseIpcMsg parseKey
        rw [skipWs_not 'b' rest rfl, expectChar_ne lbrace 'b' rest (by decide)]
      rw [hb] at h
      cases h
    · have hb : from_str ⟨'B' :: rest⟩ = none := by
        unfold from_str parseIpcMsg parseKey
        rw [skipWs_not 'B' rest rfl, expectChar_ne lbrace 'B' rest (by decide)]
      rw [hb] at h
      cases h

end app

/-! ## The auth orchestrator (`sn_api/src/api/app/auth.rs`) -/

/-- Method for requesting application's authorisation. -/
def SN_AUTHD_METHOD_AUTHORISE : String := "authorise"

/-- Modelled from the spec: `SN_AUTHD_ENDPOINT_HOST` lives in the
constants module, not among the sources (a host string). -/
def SN_AUTHD_ENDPOINT_HOST : String := "https://localhost"

/-- Modelled from the spec: `SN_AUTHD_ENDPOINT_PORT` lives in the
constants module, not among the sources (a port number). -/
def SN_AUTHD_ENDPOINT_PORT : Nat := 33000

/-- The endpoint resolution of `send_app_auth_req` (`app/auth.rs`):
`None` selects the default formed from the two constants
(`format!("{}:{}", host, port)`), `Some(endpoint)` is used verbatim. -/
def authd_service_url : Option String → String
  | none => SN_AUTHD_ENDPOINT_HOST ++ ":" ++ toString SN_AUTHD_ENDPOINT_PORT
  | some endpoint => endpoint

/-- The wire bytes of a Rust string. -/
def strBytes (s : String) : List Nat := s.data.map Char.toNat

/-- Modelled from the spec: `IpcMsg::new_auth_req` is not among the
sources; the spec's request builder wraps the three identity fields and
a fresh correlation id into a `Req`.  The randomness is injected as
`sample`. -/
def new_auth_req (sample : Nat) (app_id app_name app_vendor : String) : ipc.IpcMsg :=
  .Req (ipc.gen_req_id sample) (.Auth ⟨strBytes app_id, strBytes app_name, strBytes app_vendor⟩)

/-- `Safe::auth_app` (`app/auth.rs`) with its collaborators injected:
`sample` is the randomness behind the request id and `transport` the
authd round trip (`send_authd_request`, external).  `IpcMsg::to_string`
and `IpcMsg::from_string` are not among the sources and are modelled
from the spec as the wire codec.  The source matches ANY decoded
`Resp(..)` — whatever its payload — as success and returns the
still-encoded reply string. -/
def auth_app (sample : Nat) (app_id app_name app_vendor : String)
    (endpoint : Option String)
    (transport : String → String → Except Error String) : Except Error String :=
  let request := new_auth_req sample app_id app_name app_vendor
  let auth_req_str := ipc.encodeStr request
  match transport (authd_service_url endpoint) auth_req_str with
  | .error e => .error e
  | .ok auth_res =>
    match ipc.decode_msg auth_res with
    | .ok (ipc.IpcMsg.Resp _ _) => .ok auth_res
    | .ok other =>
      .error (.AuthError ("Application was not authorised, unexpected response was received: "
        ++ ipc.debugMsg other))
    | .error e =>
      .error (.AuthError ("Application was not authorised: " ++ ipc.debugErr e))

end sn_api

/-! ## The CLI credentials flow (`sn_cli/operations/auth_and_connect.rs`) -/

namespace sn_cli

/-- The CLI's view of the filesystem: the content of the user-scoped
credentials file (`~/.safe/cli/credentials`); `none` when the file does
not exist. -/
structure FsState : Type where
  credentials_file : Option String
  deriving DecidableEq

/-- `create_credentials_file`: `File::create` creates the credentials
file, truncating it when it already exists, so the content after the
call is empty whatever it was before. -/
def create_credentials_file (_fs : FsState) : FsState × Unit :=
  (⟨some ""⟩, ())

/-- `serde_json::to_string` of the obtained keypair (opaque here): a
JSON string quoting of the credential. -/
def serialise_keypair (k : String) : String := "\"" ++ k ++ "\""

/-- `authorise_cli` (`auth_and_connect.rs`): the credentials file is
created — and thereby truncated — FIRST (line 22), before the
authorisation request is even sent; `Safe::auth_app` is injected as
`auth_result`.  On failure the function returns early with the file
already truncated; on success it writes the serialised keypair. -/
def authorise_cli (fs : FsState) (auth_result : Except String String) :
    FsState × Except String Unit :=
  let created := create_credentials_file fs
  let fs₁ := created.1
  match auth_result with
  | .error err => (fs₁, .error ("Application authorisation failed: " ++ err))
  | .ok app_keypair => (⟨some (serialise_keypair app_keypair)⟩, .ok ())

end sn_cli

/-! ## The claims -/

/-- C1: for every valid `IpcMsg` value `m`, encoding succeeds and
decoding the encoding yields a value equal to `m`, field for field. -/
theorem C1_wire_roundtrip (m : ipc.IpcMsg) (h : m.valid) :
    ipc.encode_msg m = .ok (ipc.encodeStr m) ∧
    ipc.decode_msg (ipc.encodeStr m) = .ok m := by
  refine ⟨rfl, ?_⟩
  have hser := ipc.ipcMsgSer_lt m h
  rw [show ipc.encodeStr m = ⟨'b' :: ipc.base32encode m.ser⟩ from rfl,
    ipc.decode_msg_mk_cons, if_pos (Or.inl rfl), ipc.base32decode_encode m.ser hser]
  have hrt := ipc.rdIpcMsg_roundtrip m h []
  rw [List.append_nil] at hrt
  simp only [hrt]

theorem C1_wire_roundtrip_witness :
    (ipc.IpcMsg.Req 3 (.Auth ⟨[97], [98, 99], []⟩)).valid ∧
    ipc.decode_msg (ipc.encodeStr (ipc.IpcMsg.Req 3 (.Auth ⟨[97], [98, 99], []⟩))) =
      .ok (ipc.IpcMsg.Req 3 (.Auth ⟨[97], [98, 99], []⟩)) :=
  ⟨by decide, (C1_wire_roundtrip (.Req 3 (.Auth ⟨[97], [98, 99], []⟩)) (by decide)).2⟩

/-- C2: decoding the empty string fails with `InvalidMsg`, and the
empty string is the only input for which `decode_msg` returns
`InvalidMsg`. -/
theorem C2_empty_input (s : String) (h : s ≠ "") :
    ipc.decode_msg "" = .error .InvalidMsg ∧
    ipc.decode_msg s ≠ .error .InvalidMsg := by
  refine ⟨rfl, ?_⟩
  obtain ⟨l⟩ := s
  match l with
  | [] => exact absurd rfl h
  | c :: rest =>
    rw [ipc.decode_msg_mk_cons]
    by_cases hc : c = 'b' ∨ c = 'B'
    · rw [if_pos hc]
      rcases hb : ipc.base32decode rest with _ | bytes
      · simp
      · rcases hr : ipc.rdIpcMsg bytes with _ | p
        · simp [hr]
        · obtain ⟨msg, r⟩ := p
          simp [hr]
    · rw [if_neg hc]
      simp

theorem C2_empty_input_witness :
    ("z" : String) ≠ "" ∧ ipc.decode_msg "z" ≠ .error .InvalidMsg :=
  ⟨by decide, (C2_empty_input "z" (by decide)).2⟩

/-- C3: a nonempty input whose scheme character is neither `b` nor `B`
fails with `EncodeDecodeError` whatever the rest of the input is, and
`b`/`B` select the same base32 decoding path. -/
theorem C3_bad_scheme_char :
    (∀ (c : Char) (chars : List Char), ¬(c = 'b' ∨ c = 'B') →
      ipc.decode_msg ⟨c :: chars⟩ = .error .EncodeDecodeError) ∧
    ∀ chars : List Char, ipc.decode_msg ⟨'b' :: chars⟩ = ipc.decode_msg ⟨'B' :: chars⟩ := by
  constructor
  · intro c chars hc
    rw [ipc.decode_msg_mk_cons, if_neg hc]
  · intro chars
    rw [ipc.decode_msg_mk_cons, ipc.decode_msg_mk_cons, if_pos (Or.inl rfl),
      if_pos (Or.inr rfl)]

theorem C3_bad_scheme_char_witness :
    ¬(('z' : Char) = 'b' ∨ ('z' : Char) = 'B') ∧
    ipc.decode_msg ⟨['z', 'Q', 'Q']⟩ = .error .EncodeDecodeError :=
  ⟨by decide, C3_bad_scheme_char.1 'z' ['Q', 'Q'] (by decide)⟩

/-- C4: decoding any strict nonempty prefix of the encoding of a valid
message fails with `EncodeDecodeError` — the failure comes from the
base32 step or from deserializing a truncated byte string, and no
partially reconstructed message is ever returned. -/
theorem C4_truncated_payload (m : ipc.IpcMsg) (h : m.valid) (n : Nat)
    (h1 : 1 ≤ n) (h2 : n < (ipc.encodeStr m).data.length) :
    ipc.decode_msg ⟨(ipc.encodeStr m).data.take n⟩ = .error .EncodeDecodeError := by
  have hser := ipc.ipcMsgSer_lt m h
  obtain ⟨k, rfl⟩ : ∃ k, n = k + 1 := ⟨n - 1, by omega⟩
  rw [show (ipc.encodeStr m).data = 'b' :: ipc.base32encode m.ser from rfl] at h2 ⊢
  rw [List.take_succ_cons, ipc.decode_msg_mk_cons, if_pos (Or.inl rfl)]
  have hk : k < (ipc.base32encode m.ser).length := by
    rw [List.length_cons] at h2
    omega
  rcases ipc.base32decode_encode_take m.ser hser k hk with hnone | ⟨j, hj, hsome⟩
  · rw [hnone]
  · simp only [hsome, ipc.rdIpcMsg_trunc m h j hj]

theorem C4_truncated_payload_witness :
    (ipc.IpcMsg.Err .AuthDenied).valid ∧ 1 ≤ 5 ∧
    5 < (ipc.encodeStr (.Err .AuthDenied)).data.length ∧
    ipc.decode_msg ⟨(ipc.encodeStr (ipc.IpcMsg.Err .AuthDenied)).data.take 5⟩ =
      .error .EncodeDecodeError :=
  ⟨by decide, by decide, by decide,
    C4_truncated_payload (.Err .AuthDenied) (by decide) 5 (by decide) (by decide)⟩

/-- C5: `gen_req_id` never overflows and never returns zero: with the
sampled base value drawn from `[0, u32::MAX)`, the result lies in
`[1, u32::MAX]`, stays below `2^32`, and every value of that range is
reachable. -/
theorem C5_req_id_range (sample : Nat) (h : sample < ipc.u32max) :
    1 ≤ ipc.gen_req_id sample ∧ ipc.gen_req_id sample ≤ ipc.u32max ∧
    ipc.gen_req_id sample < 2 ^ 32 ∧
    ∀ v, 1 ≤ v → v ≤ ipc.u32max → ∃ t, t < ipc.u32max ∧ ipc.gen_req_id t = v := by
  have h32 : (2 : Nat) ^ 32 = 4294967296 := by norm_num
  unfold ipc.gen_req_id ipc.u32max at *
  refine ⟨by omega, by omega, by omega, ?_⟩
  intro v h1 h2
  exact ⟨v - 1, by omega, by omega⟩

theorem C5_req_id_range_witness :
    41 < ipc.u32max ∧ 1 ≤ ipc.gen_req_id 41 ∧ ipc.gen_req_id 41 ≤ ipc.u32max :=
  ⟨by decide, (C5_req_id_range 41 (by decide)).1, (C5_req_id_range 41 (by decide)).2.1⟩

/-- C6 counterexample: a JSON reply the classifier accepts
(`Unregistered(Ok([]))`) while `decode_msg` rejects the very same
string — so the classifier does NOT decode via the wire codec. -/
theorem C6_counterexample_json_not_wire :
    sn_api.app.decode_auth_response_ipc_msg
        "\x7b\"Resp\":\x7b\"Unregistered\":\x7b\"Ok\":[]\x7d\x7d\x7d" =
      .ok (.Unregistered []) ∧
    ipc.decode_msg "\x7b\"Resp\":\x7b\"Unregistered\":\x7b\"Ok\":[]\x7d\x7d\x7d" =
      .error .EncodeDecodeError :=
  ⟨by decide, by decide⟩

/-- C6 (amended): the classifier decodes its raw input via
`serde_json`, not via the wire codec; a parse failure surfaces as
`InvalidInput` carrying the decode detail, and an input the classifier
accepts is always rejected by `decode_msg` (its first character is a
brace or whitespace, never a scheme character). -/
theorem C6_amended_classifier_uses_json :
    (∀ s : String, sn_api.app.from_str s = none →
      sn_api.app.decode_auth_response_ipc_msg s =
        .error (.InvalidInput "Failed to decode the credentials")) ∧
    ∀ s : String, (sn_api.app.decode_auth_response_ipc_msg s).isOk = true →
      ipc.decode_msg s = .error .EncodeDecodeError := by
  constructor
  · intro s h
    unfold sn_api.app.decode_auth_response_ipc_msg
    rw [h]
  · intro s hok
    unfold sn_api.app.decode_auth_response_ipc_msg at hok
    rcases hm : sn_api.app.from_str s with _ | m
    · rw [hm] at hok
      cases hok
    · exact sn_api.app.from_str_not_wire s m hm

theorem C6_amended_classifier_uses_json_witness :
    sn_api.app.from_str "x" = none ∧
    sn_api.app.decode_auth_response_ipc_msg "x" =
      .error (.InvalidInput "Failed to decode the credentials") ∧
    (sn_api.app.decode_auth_response_ipc_msg
        "\x7b\"Resp\":\x7b\"Auth\":\x7b\"Ok\":\"cred\"\x7d\x7d\x7d").isOk = true ∧
    ipc.decode_msg "\x7b\"Resp\":\x7b\"Auth\":\x7b\"Ok\":\"cred\"\x7d\x7d\x7d" =
      .error .EncodeDecodeError :=
  ⟨by decide, C6_amended_classifier_uses_json.1 "x" (by decide), by decide,
    C6_amended_classifier_uses_json.2
      "\x7b\"Resp\":\x7b\"Auth\":\x7b\"Ok\":\"cred\"\x7d\x7d\x7d" (by decide)⟩

/-- C7: for every successfully decoded message the classifier maps each
shape to the documented outcome — `Auth(Ok)` to `Registered` with the
bundle unchanged, `Unregistered(Ok)` to `Unregistered` with the config
unchanged, either denial to a failure carrying the rendered reason, and
every other shape (`Req`, `Revoked`, standalone `Err`) to a failure
carrying a debug rendering of the received value, never a silent
drop. -/
theorem C7_classifier_completeness :
    (∀ (s : String) (g : sn_api.app.AuthGranted),
      sn_api.app.from_str s = some (.Resp (.Auth (.ok g))) →
      sn_api.app.decode_auth_response_ipc_msg s = .ok (.Registered g)) ∧
    (∀ (s : String) (e : sn_api.app.IpcError),
      sn_api.app.from_str s = some (.Resp (.Auth (.error e))) →
      sn_api.app.decode_auth_response_ipc_msg s =
        .error (.AuthError (sn_api.app.debugAppErr e))) ∧
    (∀ (s : String) (c : sn_api.app.BootstrapConfig),
      sn_api.app.from_str s = some (.Resp (.Unregistered (.ok c))) →
      sn_api.app.decode_auth_response_ipc_msg s = .ok (.Unregistered c)) ∧
    (∀ (s : String) (e : sn_api.app.IpcError),
      sn_api.app.from_str s = some (.Resp (.Unregistered (.error e))) →
      sn_api.app.decode_auth_response_ipc_msg s =
        .error (.AuthError (sn_api.app.debugAppErr e))) ∧
    (∀ (s : String) (q : sn_api.app.IpcReq),
      sn_api.app.from_str s = some (.Req q) →
      sn_api.app.decode_auth_response_ipc_msg s =
        .error (.AuthError (sn_api.app.debugAppMsg (.Req q)))) ∧
    (∀ (s a : String),
      sn_api.app.from_str s = some (.Revoked a) →
      sn_api.app.decode_auth_response_ipc_msg s =
        .error (.AuthError (sn_api.app.debugAppMsg (.Revoked a)))) ∧
    (∀ (s : String) (e : sn_api.app.IpcError),
      sn_api.app.from_str s = some (.Err e) →
      sn_api.app.decode_auth_response_ipc_msg s =
        .error (.AuthError (sn_api.app.debugAppMsg (.Err e)))) := by
  refine ⟨?_, ?_, ?_, ?_, ?_, ?_, ?_⟩ <;>
    intro s x h <;>
    unfold sn_api.app.decode_auth_response_ipc_msg <;>
    rw [h]

theorem C7_classifier_completeness_witness :
    sn_api.app.from_str "\x7b\"Resp\":\x7b\"Auth\":\x7b\"Ok\":\"blob\"\x7d\x7d\x7d" =
      some (.Resp (.Auth (.ok "blob"))) ∧
    sn_api.app.decode_auth_response_ipc_msg
        "\x7b\"Resp\":\x7b\"Auth\":\x7b\"Ok\":\"blob\"\x7d\x7d\x7d" =
      .ok (.Registered "blob") ∧
    sn_api.app.from_str "\x7b\"Err\":\"AuthDenied\"\x7d" = some (.Err .AuthDenied) ∧
    sn_api.app.decode_auth_response_ipc_msg "\x7b\"Err\":\"AuthDenied\"\x7d" =
      .error (.AuthError (sn_api.app.debugAppMsg (.Err .AuthDenied))) :=
  ⟨by decide,
    C7_classifier_completeness.1 _ "blob" (by decide),
    by decide,
    C7_classifier_completeness.2.2.2.2.2.2 _ .AuthDenied (by decide)⟩

/-- C8: what the code does on a denial reply — `auth_app` matches ANY
decoded `Resp`, a denial included, and returns `Ok` with the
still-encoded reply string, where the spec requires a failure carrying
the denial reason. -/
theorem C8_denial_accepted_by_auth_app :
    ipc.decode_msg (ipc.encodeStr (.Resp 1 (.Auth (.error .AuthDenied)))) =
      .ok (.Resp 1 (.Auth (.error .AuthDenied))) ∧
    sn_api.auth_app 0 "app" "name" "vendor" none
        (fun _ _ => .ok (ipc.encodeStr (.Resp 1 (.Auth (.error .AuthDenied))))) =
      .ok (ipc.encodeStr (.Resp 1 (.Auth (.error .AuthDenied)))) :=
  ⟨by decide, by decide⟩

/-- C9: endpoint resolution — `None` selects the default formed by
joining the host and port constants, and `Some(addr)` replaces the
endpoint entirely with `addr`, with no partial override. -/
theorem C9_endpoint_resolution :
    sn_api.authd_service_url none =
      sn_api.SN_AUTHD_ENDPOINT_HOST ++ ":" ++ toString sn_api.SN_AUTHD_ENDPOINT_PORT ∧
    ∀ addr : String, sn_api.authd_service_url (some addr) = addr := by
  exact ⟨rfl, fun _ => rfl⟩

/-- C10: `authorise_cli` creates — and thereby truncates — the
credentials file before the authorisation request runs, so when the
authorisation fails the previously stored content is already destroyed:
the call errors out, the file holds the empty string, and it does not
hold its prior nonempty content. -/
theorem C10_credentials_destroyed_on_failure (c err : String) (h : c ≠ "") :
    (sn_cli.authorise_cli ⟨some c⟩ (.error err)).2 =
      .error ("Application authorisation failed: " ++ err) ∧
    (sn_cli.authorise_cli ⟨some c⟩ (.error err)).1.credentials_file = some "" ∧
    (sn_cli.authorise_cli ⟨some c⟩ (.error err)).1 ≠ ⟨some c⟩ := by
  refine ⟨rfl, rfl, ?_⟩
  intro hc
  have : some "" = some c := congrArg sn_cli.FsState.credentials_file hc
  have : "" = c := by cases this; rfl
  exact h this.symm

theorem C10_credentials_destroyed_on_failure_witness :
    ("old-creds" : String) ≠ "" ∧
    (sn_cli.authorise_cli ⟨some "old-creds"⟩ (.error "denied")).1.credentials_file =
      some "" ∧
    (sn_cli.authorise_cli ⟨some "old-creds"⟩ (.error "denied")).1 ≠ ⟨some "old-creds"⟩ :=
  ⟨by decide,
    (C10_credentials_destroyed_on_failure "old-creds" "denied" (by decide)).2.1,
    (C10_credentials_destroyed_on_failure "old-creds" "denied" (by decide)).2.2⟩
